import Mathlib

/-!
# mapgen: colour-coded bitmaps to a tile map

A shallow embedding of the map generator (`main.go`, `checker.go`, `util.go`)
and the properties of its pixel classifier, neighbour sampler, autotile
resolver, object map builder and respawn extractor.

Conventions of the embedding

* A Go `panic` is the `error` side of `Except Panic`.
* Go `int` coordinates are mathematical integers: the program only ever adds
  an offset in `{-1, 0, 1}` to a loop index below the image size, so 64-bit
  wrap-around cannot occur.
* `image.Image` is an interface; it is modelled by its size and its total
  pixel reader `At`, with the origin of `Bounds()` at `(0, 0)` as for every
  decoded bitmap.
-/

deriving instance DecidableEq for Except

namespace Mapgen

/-! ## Data model -/

/-- What `color.Color.RGBA()` returns: four `uint32` channels. -/
structure Color where
  r : Nat
  g : Nat
  b : Nat
  a : Nat
deriving DecidableEq, Repr

/-- An `image.Image`: `width = Bounds().Dx()`, `height = Bounds().Dy()` and the
pixel reader `At x y`, which Go defines for every pair of integers (what it
returns outside the bounds depends on the concrete image type). -/
structure Image where
  width : Nat
  height : Nat
  At : Int → Int → Color

/-- The values a Go `panic` of the program carries. -/
inductive Panic where
  | unknownColor (r g b a : Nat)
  | unknownObjectColor (col : String) (y x : Nat)
  | indexOutOfRange
deriving DecidableEq, Repr

/-- The alias `type GroundKind = int`; only the values 0 and 1 occur. -/
abbrev GroundKind := Nat

/-- Constant `Ground` (`iota` = 0). -/
def Ground : GroundKind := 0

/-- Constant `Grass` (`iota` = 1). -/
def Grass : GroundKind := 1

/-! ## util.go -/

/-- Function `get8bitColor`: every channel of `col.RGBA()` divided by 256. -/
def get8bitColor (col : Color) : Nat × Nat × Nat × Nat :=
  (col.r / 256, col.g / 256, col.b / 256, col.a / 256)

/-! ## checker.go -/

/-- Function `isRespawnPosition`. -/
def isRespawnPosition (r g b _a : Nat) : Bool :=
  if r == 0 && g == 0 && b == 255 then true else false

/-- Function `isNormalGround`. -/
def isNormalGround (r g b _a : Nat) : Bool :=
  if r == 0 && g == 0 && b == 0 then true else false

/-- Function `isWalkableGrass`. -/
def isWalkableGrass (r g b _a : Nat) : Bool :=
  if r == 127 && g == 127 && b == 127 then true else false

/-- Function `isNormalGrass`. -/
def isNormalGrass (r g b a : Nat) : Bool :=
  if a == 0 || (r == 255 && g == 255 && b == 255) then true else false

/-! ## main.go: classifier, wall and object predicates, neighbour sampler -/

/-- Function `calcGroundKind`; the final `panic` is `Panic.unknownColor`. -/
def calcGroundKind (col : Color) : Except Panic GroundKind :=
  let c := get8bitColor col
  if isNormalGround c.1 c.2.1 c.2.2.1 c.2.2.2 then .ok Ground
  else if isRespawnPosition c.1 c.2.1 c.2.2.1 c.2.2.2 then .ok Ground
  else if isWalkableGrass c.1 c.2.1 c.2.2.1 c.2.2.2 then .ok Grass
  else if isNormalGrass c.1 c.2.1 c.2.2.1 c.2.2.2 then .ok Grass
  else .error (.unknownColor c.1 c.2.1 c.2.2.1 c.2.2.2)

/-- Function `isWall`: reads `img.At(x, y)` as given, without clamping. -/
def isWall (img : Image) (y x : Int) : Bool :=
  let c := get8bitColor (img.At x y)
  if isNormalGrass c.1 c.2.1 c.2.2.1 c.2.2.2 then true else false

/-- Function `isObject`. -/
def isObject (img : Image) (y x : Int) : Bool :=
  if !isWall img y x then false
  else if isWall img (y + 1) x || isWall img (y - 1) x ||
      isWall img y (x + 1) || isWall img y (x - 1) then true
  else false

/-- Function `getGroundKind`: clamps `x` and `y`, then classifies the pixel. -/
def getGroundKind (img : Image) (y x : Int) : Except Panic GroundKind :=
  let x := if x < 0 then 0 else x
  let y := if y < 0 then 0 else y
  let x := if (img.width : Int) ≤ x then (img.width : Int) - 1 else x
  let y := if (img.height : Int) ≤ y then (img.height : Int) - 1 else y
  calcGroundKind (img.At x y)

/-! ## main.go: autotile resolver -/

/-- The six offsets `ay, ax, by, bx, cy, cx` of `calcFilename` as functions of
the loop index `i`. The source computes them in floating point
(`int(-math.Cos(math.Pi / 2 * float64(i)))` and so on), which has no
counterpart here, so the resolver takes them as a parameter. -/
structure Offsets where
  a_y : Nat → Int
  a_x : Nat → Int
  b_y : Nat → Int
  b_x : Nat → Int
  c_y : Nat → Int
  c_x : Nat → Int

/-- The offsets of the geometry of `calcFilename` for `i = 0, 1, 2, 3`: the
direct neighbour of direction `i` (up, right, down, left), the diagonal between
directions `i` and `i + 1`, and the direct neighbour of direction `i + 1`. The
source obtains them from `math.Cos`, `math.Sin`, `math.Sqrt` and the truncation
`int()`; that those float expressions evaluate to this table is not part of
the embedding. -/
def trigOffsets : Offsets where
  a_y := fun i => [-1, 0, 1, 0].getD i 0
  a_x := fun i => [0, 1, 0, -1].getD i 0
  b_y := fun i => [-1, 1, 1, -1].getD i 0
  b_x := fun i => [1, 1, -1, -1].getD i 0
  c_y := fun i => [0, 1, 0, -1].getD i 0
  c_x := fun i => [1, 0, -1, 0].getD i 0

/-- The value `kind` of iteration `i` of the loop of `calcFilename`: the
bitwise OR of the kinds of the three sampled neighbours, read left to right. -/
def edgeKind (off : Offsets) (img : Image) (y x : Int) (i : Nat) :
    Except Panic Nat := do
  let ka ← getGroundKind img (y + off.a_y i) (x + off.a_x i)
  let kb ← getGroundKind img (y + off.b_y i) (x + off.b_x i)
  let kc ← getGroundKind img (y + off.c_y i) (x + off.c_x i)
  pure (ka ||| kb ||| kc)

/-- One iteration of the loop of `calcFilename` on the slice `bs`:
`bs[i] |= kind << 1; bs[(i+1)%4] |= kind`. -/
def tileStep (off : Offsets) (img : Image) (y x : Int) (bs : List Nat) (i : Nat) :
    Except Panic (List Nat) := do
  let kind ← edgeKind off img y x i
  let bs := bs.set i (bs.getD i 0 ||| (kind <<< 1))
  let bs := bs.set ((i + 1) % 4) (bs.getD ((i + 1) % 4) 0 ||| kind)
  pure bs

/-- Function `calcFilename`; `strconv.Itoa` is `toString` on `Nat`. -/
def calcFilename (off : Offsets) (img : Image) (y x : Int) : Except Panic String := do
  let k ← getGroundKind img y x
  if k = Grass then
    pure "3333"
  else
    let bs ← (List.range 4).foldlM (tileStep off img y x) [0, 0, 0, 0]
    pure (bs.foldl (fun name b => name ++ toString b) "")

/-- The variable `tiles`: the catalogue of tile file names. -/
def tiles : List String :=
  ["0000.png", "0021.png", "0210.png", "0231.png",
   "1002.png", "1023.png", "1212.png", "1233.png",
   "2100.png", "2121.png", "2310.png", "2331.png",
   "3102.png", "3123.png", "3312.png", "3333.png"]

/-! ## main.go: object map builder -/

/-- The type `ObjectJSON`; the Go map `Objects` is an association list read
with `List.lookup`. -/
structure ObjectJSON where
  Objects : List (String × String)
  TileBase : String
  Transparent : String

/-- The verb `%02x` of `fmt.Sprintf` on an unsigned value: lower-case
hexadecimal digits, padded with zeros on the left to a width of two. -/
def sprintf02x (v : Nat) : List Char :=
  List.replicate (2 - (Nat.toDigits 16 v).length) '0' ++ Nat.toDigits 16 v

/-- Function `colorString`: the empty string for alpha 0, otherwise
`strings.ToUpper(fmt.Sprintf("%02x%02x%02x", r, g, b))`. -/
def colorString (col : Color) : String :=
  let c := get8bitColor col
  if c.2.2.2 == 0 then ""
  else String.mk ((sprintf02x c.1 ++ sprintf02x c.2.1 ++ sprintf02x c.2.2.1).map Char.toUpper)

/-- The assignment `ret[y][x] = v`, which panics when an index is out of range. -/
def setCell (ret : List (List String)) (y x : Nat) (v : String) :
    Except Panic (List (List String)) :=
  match ret[y]? with
  | none => .error .indexOutOfRange
  | some row =>
    if x < row.length then .ok (ret.set y (row.set x v)) else .error .indexOutOfRange

/-- The body of the inner loop of the second pass of `createObjectMap`. -/
def objectStep (oj : ObjectJSON) (objimg : Image) (y : Nat) (ret : List (List String))
    (x : Nat) : Except Panic (List (List String)) :=
  let col := colorString (objimg.At x y)
  if col = "" then .ok ret
  else
    match oj.Objects.lookup col with
    | none => .error (.unknownObjectColor col y x)
    | some obj => setCell ret y x obj

/-- Function `createObjectMap`: the first pass appends one row per `y` with the
placeholder on object cells, the second pass overwrites cells from the overlay
image and panics on an unknown colour. -/
def createObjectMap (oj : ObjectJSON) (grdimg objimg : Image) :
    Except Panic (List (List String)) :=
  let width := grdimg.width
  let height := grdimg.height
  let ret : List (List String) :=
    (List.range height).foldl
      (fun ret (y : Nat) =>
        ret ++ [(List.range width).foldl
          (fun r (x : Nat) => r ++ [if isObject grdimg y x then oj.Transparent else ""]) []])
      []
  (List.range height).foldlM
    (fun ret y => (List.range width).foldlM (objectStep oj objimg y) ret) ret

/-! ## main.go: respawn extractor -/

/-- The type `RespawnPosition`. -/
structure RespawnPosition where
  X : Int
  Y : Int
deriving DecidableEq, Repr

/-- Function `getRespawnPositions`. -/
def getRespawnPositions (grdimg : Image) : List RespawnPosition :=
  let width := grdimg.width
  let height := grdimg.height
  (List.range height).foldl
    (fun poss (y : Nat) =>
      (List.range width).foldl
        (fun poss (x : Nat) =>
          let c := get8bitColor (grdimg.At x y)
          if isRespawnPosition c.1 c.2.1 c.2.2.1 c.2.2.2 then poss ++ [⟨x, y⟩] else poss)
        poss)
    []

/-! ## main.go: tile map builder -/

/-- Function `createTileMap`. The library function `path.Join` is the
parameter `join`; a panic of `calcFilename` ends the loops. -/
def createTileMap (join : String → String → String) (off : Offsets) (base : String)
    (img : Image) : Except Panic (List (List String)) :=
  let width := img.width
  let height := img.height
  (List.range height).foldlM
    (fun ret (y : Nat) => do
      let r ← (List.range width).foldlM
        (fun r (x : Nat) => do
          let name ← calcFilename off img y x
          pure (r ++ [join base (name ++ ".png")]))
        []
      pure (ret ++ [r]))
    []

/-! ## main.go and types.go: the registration steps of `main` -/

/-- The type `LayersJSON`, without the `Character` field that `main` leaves alone. -/
structure LayersJSON where
  TileMap : List (List String)
  Object : List (List String)

/-- The fields of the type `MapJSON` that `main` writes. The Go map
`TextureNameToURL` is its lookup function (`none` for an absent key). -/
structure MapJSON where
  TextureNameToURL : String → Option String
  Layers : LayersJSON
  RespawnPositions : List RespawnPosition

/-- The Go map assignment `m[k] = v`. -/
def mapSet (m : String → Option String) (k v : String) : String → Option String :=
  fun k' => if k' = k then some v else m k'

/-- The values that `for _, p := range oj.Objects` visits: those of the entries
of the association list that `List.lookup` can reach. -/
def objectValues (oj : ObjectJSON) : List String :=
  (oj.Objects.filter fun kv => oj.Objects.lookup kv.1 == some kv.2).map fun kv => kv.2

/-- The three registration steps of `main` on the map `TextureNameToURL`: the
transparent placeholder, then `path.Join(oj.TileBase, tiles[i])` for every
`i`, then every value of `oj.Objects`, each mapped to itself. -/
def registerTextures (join : String → String → String) (oj : ObjectJSON)
    (m : String → Option String) : String → Option String :=
  let urls := mapSet m oj.Transparent oj.Transparent
  let urls := tiles.foldl
    (fun m t => mapSet m (join oj.TileBase t) (join oj.TileBase t)) urls
  (objectValues oj).foldl (fun m p => mapSet m p p) urls

/-- Function `main` from the registration of the texture names to the filling
of the output, on an already decoded template `output`, configuration `oj` and
images; the template's `TextureNameToURL` is a non-nil map. -/
def main (join : String → String → String) (off : Offsets) (output : MapJSON)
    (oj : ObjectJSON) (grdimg objimg : Image) : Except Panic MapJSON := do
  let urls := registerTextures join oj output.TextureNameToURL
  let tileMap ← createTileMap join off oj.TileBase grdimg
  let object ← createObjectMap oj grdimg objimg
  pure ⟨urls, ⟨tileMap, object⟩, getRespawnPositions grdimg⟩

/-! ## Vocabulary of the properties -/

/-- An image built purely from accepted palette colours: the classifier
`calcGroundKind` accepts every pixel inside the bounds. -/
def PaletteImage (img : Image) : Prop :=
  ∀ x : Nat, x < img.width → ∀ y : Nat, y < img.height →
    (calcGroundKind (img.At x y)).isOk = true

/-- The colour whose four 8-bit channels are `r g b a`, as `color.RGBA`
widens them to 16 bits. -/
def rgba8 (r g b a : Nat) : Color := ⟨r * 257, g * 257, b * 257, a * 257⟩

/-- Corner digit `i` of the spec: `2 * edgeBit i + edgeBit ((i + 3) mod 4)`. -/
def cornerDigit (e : Nat → Nat) (i : Nat) : Nat := 2 * e i + e ((i + 3) % 4)

/-- A 3x3 ground image: plain ground with one white pixel in the middle. -/
def islandImage : Image :=
  ⟨3, 3, fun x y => if x = 1 ∧ y = 1 then rgba8 255 255 255 255 else rgba8 0 0 0 255⟩

/-- Nearest valid index to `v` in an axis of `n` pixels: `min (max v 0) (n - 1)`. -/
def clampCoord (n : Nat) (v : Int) : Int := min (max v 0) ((n : Int) - 1)

/-- The wall test of the spec's object rule for a neighbour: the coordinates
are clamped to the image before the pixel is read. -/
def isWallClamped (img : Image) (y x : Int) : Bool :=
  isWall img (clampCoord img.height y) (clampCoord img.width x)

/-- The object rule in the spec's words: a wall cell with at least one of its
four cardinal neighbours, clamped at the image edges, a wall. -/
def isObjectClampedSpec (img : Image) (y x : Int) : Bool :=
  isWall img y x &&
    (isWallClamped img (y + 1) x || isWallClamped img (y - 1) x ||
      isWallClamped img y (x + 1) || isWallClamped img y (x - 1))

/-- A 1x1 image holding one white pixel whose reader returns opaque black
outside the bounds, as `image.Paletted.At` does when entry 0 of the palette
is black (the image type of an 8-bit bitmap). -/
def loneWallImage : Image :=
  ⟨1, 1, fun x y => if x = 0 ∧ y = 0 then rgba8 255 255 255 255 else rgba8 0 0 0 255⟩

/-- A 3x3 image of white pixels whose reader returns the fully transparent zero
colour outside the bounds, as `image.RGBA.At` and `image.NRGBA.At` do. -/
def wallBlockImage : Image :=
  ⟨3, 3, fun x y => if 0 ≤ x ∧ x < 3 ∧ 0 ≤ y ∧ y < 3 then rgba8 255 255 255 255
    else ⟨0, 0, 0, 0⟩⟩

/-- The entry `ret[y][x]` of a grid, when it exists. -/
def cellAt (ret : List (List String)) (y x : Nat) : Option String :=
  (ret[y]?).bind (fun row => row[x]?)

/-- A grid of `h` rows of `w` entries each. -/
def Shaped (h w : Nat) (ret : List (List String)) : Prop :=
  ret.length = h ∧ ∀ row ∈ ret, row.length = w

/-- The overlay pixel at `(y, x)` has alpha different from 0 and a colour
string that is no key of the colour-to-texture table. -/
def UnknownOverlay (oj : ObjectJSON) (objimg : Image) (y x : Nat) : Prop :=
  (get8bitColor (objimg.At x y)).2.2.2 ≠ 0 ∧
    oj.Objects.lookup (colorString (objimg.At x y)) = none

/-- The respawn-marker test on the pixel `(x, y)` of an image. -/
def isMarker (img : Image) (y x : Nat) : Bool :=
  isRespawnPosition (get8bitColor (img.At x y)).1 (get8bitColor (img.At x y)).2.1
    (get8bitColor (img.At x y)).2.2.1 (get8bitColor (img.At x y)).2.2.2

/-- The respawn list in the spec's words: the marker pixels in row-major scan
order, `y` ascending and `x` ascending within a row. -/
def respawnScanSpec (img : Image) : List RespawnPosition :=
  (List.range img.height).flatMap fun y =>
    ((List.range img.width).filter fun x => isMarker img y x).map fun (x : Nat) => ⟨x, y⟩

/-- Strict lexicographic order on `(Y, X)`. -/
def RespawnPosition.before (p q : RespawnPosition) : Prop :=
  p.Y < q.Y ∨ (p.Y = q.Y ∧ p.X < q.X)

/-- A configuration with one overlay colour, pure red. -/
def demoConfig : ObjectJSON :=
  ⟨[("FF0000", "tree.png")], "tiles", "clear.png"⟩

/-- A 3x3 overlay image: pure red at `(x, y) = (1, 1)`, transparent elsewhere. -/
def demoOverlay : Image :=
  ⟨3, 3, fun x y => if x = 1 ∧ y = 1 then rgba8 255 0 0 255 else ⟨0, 0, 0, 0⟩⟩

/-- A 3x3 overlay image with a pure green pixel at `(x, y) = (2, 0)`, a colour
that `demoConfig` does not list. -/
def strayOverlay : Image :=
  ⟨3, 3, fun x y => if x = 2 ∧ y = 0 then rgba8 0 255 0 255 else ⟨0, 0, 0, 0⟩⟩

/-- A 3x2 ground image with respawn markers at `(x, y) = (2, 0)` and `(0, 1)`. -/
def spawnImage : Image :=
  ⟨3, 2, fun x y => if (x = 2 ∧ y = 0) ∨ (x = 0 ∧ y = 1) then rgba8 0 0 255 255
    else rgba8 0 0 0 255⟩

/-- The name `calcFilename` returns at a cell, or the empty string when it panics. -/
def nameAt (off : Offsets) (img : Image) (y x : Int) : String :=
  match calcFilename off img y x with
  | .ok name => name
  | .error _ => ""

/-- An image that is plain ground, `(0, 0, 0, 255)`, at every pixel. -/
def UniformGround (img : Image) : Prop :=
  ∀ x : Nat, x < img.width → ∀ y : Nat, y < img.height →
    get8bitColor (img.At x y) = (0, 0, 0, 255)

/-- An image that is Ground-kind at every pixel except the pixel `(y0, x0)`,
which is Grass-kind. -/
def SingleGrass (img : Image) (y0 x0 : Nat) : Prop :=
  ∀ x : Nat, x < img.width → ∀ y : Nat, y < img.height →
    calcGroundKind (img.At x y) = .ok (if y = y0 ∧ x = x0 then Grass else Ground)

/-- A 3x3 image of plain ground whose four diagonal corners are white where the
flag of the direction is set: `s0` up-right, `s1` down-right, `s2` down-left,
`s3` up-left. -/
def cornerImage (s0 s1 s2 s3 : Bool) : Image :=
  ⟨3, 3, fun x y =>
    if (x = 2 ∧ y = 0 ∧ s0 = true) ∨ (x = 2 ∧ y = 2 ∧ s1 = true) ∨
        (x = 0 ∧ y = 2 ∧ s2 = true) ∨ (x = 0 ∧ y = 0 ∧ s3 = true)
    then rgba8 255 255 255 255 else rgba8 0 0 0 255⟩

/-- A 3x3 image of white pixels around one plain-ground pixel in the middle. -/
def pondImage : Image :=
  ⟨3, 3, fun x y => if x = 1 ∧ y = 1 then rgba8 0 0 0 255 else rgba8 255 255 255 255⟩

/-- The upper-case hexadecimal digit of a value below 16. -/
def hexUpper (d : Nat) : Char :=
  if d < 10 then Char.ofNat (48 + d) else Char.ofNat (55 + d)

/-- A 1x1 fully transparent overlay image that returns the zero colour
everywhere, as a 1x1 `image.NRGBA` does. -/
def tinyOverlay : Image := ⟨1, 1, fun _ _ => ⟨0, 0, 0, 0⟩⟩

/-- A stand-in for `path.Join` on a non-empty clean base: `base/name`. -/
def slashJoin (base name : String) : String := base ++ "/" ++ name

/-- An empty template: no texture registered yet. -/
def emptyTemplate : MapJSON := ⟨fun _ => none, ⟨[], []⟩, []⟩

/-- A pixel that `colorString` encodes: alpha different from 0 and the 8-bit
channels r, g, b in 0..255. -/
def VisiblePixel (col : Color) : Prop :=
  (get8bitColor col).2.2.2 ≠ 0 ∧ (get8bitColor col).1 ≤ 255 ∧
    (get8bitColor col).2.1 ≤ 255 ∧ (get8bitColor col).2.2.1 ≤ 255

/-- The two-digit upper-case hexadecimal encoding of r, then g, then b. -/
def hexRGB (col : Color) : List Char :=
  [hexUpper ((get8bitColor col).1 / 16), hexUpper ((get8bitColor col).1 % 16),
   hexUpper ((get8bitColor col).2.1 / 16), hexUpper ((get8bitColor col).2.1 % 16),
   hexUpper ((get8bitColor col).2.2.1 / 16), hexUpper ((get8bitColor col).2.2.1 % 16)]

/-! # Properties -/

/-! ## Pixel classifier -/

theorem calcGroundKind_cases (col : Color) :
    calcGroundKind col = .ok Ground ∨ calcGroundKind col = .ok Grass ∨
      ∃ e, calcGroundKind col = .error e := by
  unfold calcGroundKind
  simp only []
  split_ifs <;> simp

/-- C3: on the four opaque palette colours the classifier returns the
documented kind and does not fail: (0,0,255,255) and (0,0,0,255) are Ground,
(127,127,127,255) and (255,255,255,255) are Grass. -/
theorem calcGroundKind_palette (col : Color) :
    (get8bitColor col = (0, 0, 255, 255) → calcGroundKind col = .ok Ground) ∧
    (get8bitColor col = (0, 0, 0, 255) → calcGroundKind col = .ok Ground) ∧
    (get8bitColor col = (127, 127, 127, 255) → calcGroundKind col = .ok Grass) ∧
    (get8bitColor col = (255, 255, 255, 255) → calcGroundKind col = .ok Grass) := by
  refine ⟨?_, ?_, ?_, ?_⟩ <;> intro h <;> simp only [calcGroundKind, h] <;> decide

/-- The four opaque palette colours, classified. -/
theorem calcGroundKind_palette_witness :
    calcGroundKind (rgba8 0 0 255 255) = .ok Ground ∧
    calcGroundKind (rgba8 0 0 0 255) = .ok Ground ∧
    calcGroundKind (rgba8 127 127 127 255) = .ok Grass ∧
    calcGroundKind (rgba8 255 255 255 255) = .ok Grass :=
  ⟨(calcGroundKind_palette (rgba8 0 0 255 255)).1 (by decide),
   (calcGroundKind_palette (rgba8 0 0 0 255)).2.1 (by decide),
   (calcGroundKind_palette (rgba8 127 127 127 255)).2.2.1 (by decide),
   (calcGroundKind_palette (rgba8 255 255 255 255)).2.2.2 (by decide)⟩

/-- C4: the classifier at the fully transparent pixel. `RGBA()` is
alpha-premultiplied, so every pixel with alpha 0 reads `(0, 0, 0, 0)`. There
`isNormalGrass` holds by its `a == 0` rule and `isWall` calls the pixel a wall,
yet `calcGroundKind` returns Ground and not Grass: `isNormalGround` compares
r, g, b only and is tested first, so the `a == 0` rule is never reached. -/
theorem calcGroundKind_transparent_pixel :
    get8bitColor ⟨0, 0, 0, 0⟩ = (0, 0, 0, 0) ∧
    isNormalGrass 0 0 0 0 = true ∧
    isWall ⟨1, 1, fun _ _ => ⟨0, 0, 0, 0⟩⟩ 0 0 = true ∧
    isNormalGround 0 0 0 0 = true ∧
    calcGroundKind ⟨0, 0, 0, 0⟩ = .ok Ground ∧
    calcGroundKind ⟨0, 0, 0, 0⟩ ≠ .ok Grass := by
  decide

/-- C5 as stated fails: (0,0,0,128) has alpha different from 0 and is none of
the four opaque palette colours, yet it is classified Ground. -/
theorem calcGroundKind_unknown_counterexample :
    ¬ (∀ col : Color,
        (get8bitColor col).1 ≤ 255 → (get8bitColor col).2.1 ≤ 255 →
        (get8bitColor col).2.2.1 ≤ 255 → (get8bitColor col).2.2.2 ≤ 255 →
        (get8bitColor col).2.2.2 ≠ 0 →
        get8bitColor col ≠ (0, 0, 255, 255) → get8bitColor col ≠ (0, 0, 0, 255) →
        get8bitColor col ≠ (127, 127, 127, 255) → get8bitColor col ≠ (255, 255, 255, 255) →
        ∃ e, calcGroundKind col = .error e) := by
  intro h
  obtain ⟨e, he⟩ := h (rgba8 0 0 0 128) (by decide) (by decide) (by decide) (by decide)
    (by decide) (by decide) (by decide) (by decide) (by decide)
  have hk : calcGroundKind (rgba8 0 0 0 128) = .ok Ground := by decide
  rw [hk] at he
  cases he

/-- C5, amended: the classifier fails exactly on the colours with alpha
different from 0 whose (r,g,b) is none of (0,0,0), (0,0,255), (127,127,127),
(255,255,255), and then with the unknown-colour error carrying the four
channels. Matching is by exact equality on r, g, b; alpha is only compared
with 0; nothing defaults silently. -/
theorem calcGroundKind_unknown (col : Color) :
    ((∃ e, calcGroundKind col = .error e) ↔
      ((get8bitColor col).2.2.2 ≠ 0 ∧
        ((get8bitColor col).1, (get8bitColor col).2.1, (get8bitColor col).2.2.1) ∉
          [(0, 0, 0), (0, 0, 255), (127, 127, 127), (255, 255, 255)])) ∧
    ∀ e, calcGroundKind col = .error e →
      e = .unknownColor (get8bitColor col).1 (get8bitColor col).2.1
        (get8bitColor col).2.2.1 (get8bitColor col).2.2.2 := by
  simp only [calcGroundKind, isNormalGround, isRespawnPosition, isWalkableGrass,
    isNormalGrass]
  split_ifs <;> simp_all
  tauto

/-! ## Neighbour sampler -/

theorem getGroundKind_eq (img : Image) (hw : 0 < img.width) (hh : 0 < img.height)
    (y x : Int) :
    getGroundKind img y x =
      calcGroundKind (img.At (clampCoord img.width x) (clampCoord img.height y)) := by
  have hx : (if (img.width : Int) ≤ (if x < 0 then 0 else x) then (img.width : Int) - 1
      else (if x < 0 then 0 else x)) = min (max x 0) ((img.width : Int) - 1) := by
    split_ifs <;> omega
  have hy : (if (img.height : Int) ≤ (if y < 0 then 0 else y) then (img.height : Int) - 1
      else (if y < 0 then 0 else y)) = min (max y 0) ((img.height : Int) - 1) := by
    split_ifs <;> omega
  simp only [getGroundKind, clampCoord, hx, hy]

theorem clampCoord_range (n : Nat) (hn : 0 < n) (v : Int) :
    0 ≤ clampCoord n v ∧ clampCoord n v < n := by
  unfold clampCoord
  omega

theorem clampCoord_idem (n : Nat) (hn : 0 < n) (v : Int) :
    clampCoord n (clampCoord n v) = clampCoord n v := by
  unfold clampCoord
  omega

/-- C6: in an image with at least one row and one column, for all integers
`(y, x)`, `getGroundKind` classifies the pixel at
`(min (max x 0) (width - 1), min (max y 0) (height - 1))`, which lies inside
the image, and so agrees with `getGroundKind` at the clamped coordinates. -/
theorem getGroundKind_clamp (img : Image) (hw : 0 < img.width) (hh : 0 < img.height)
    (y x : Int) :
    (0 ≤ min (max x 0) ((img.width : Int) - 1) ∧
      min (max x 0) ((img.width : Int) - 1) < img.width) ∧
    (0 ≤ min (max y 0) ((img.height : Int) - 1) ∧
      min (max y 0) ((img.height : Int) - 1) < img.height) ∧
    getGroundKind img y x =
      calcGroundKind (img.At (min (max x 0) ((img.width : Int) - 1))
        (min (max y 0) ((img.height : Int) - 1))) ∧
    getGroundKind img y x =
      getGroundKind img (min (max y 0) ((img.height : Int) - 1))
        (min (max x 0) ((img.width : Int) - 1)) := by
  refine ⟨by omega, by omega, getGroundKind_eq img hw hh y x, ?_⟩
  rw [getGroundKind_eq img hw hh y x, getGroundKind_eq img hw hh]
  have h1 := clampCoord_idem img.width hw x
  have h2 := clampCoord_idem img.height hh y
  unfold clampCoord at h1 h2 ⊢
  rw [h1, h2]

/-- Sampling above the top edge of `islandImage` reads row 0. -/
theorem getGroundKind_clamp_witness :
    getGroundKind islandImage (-7) 1 = calcGroundKind (islandImage.At 1 0) ∧
    getGroundKind islandImage (-7) 1 = getGroundKind islandImage 0 1 :=
  (getGroundKind_clamp islandImage (by decide) (by decide) (-7) 1).2.2

theorem getGroundKind_kind (img : Image) (hp : PaletteImage img)
    (hw : 0 < img.width) (hh : 0 < img.height) (y x : Int) :
    getGroundKind img y x = .ok Ground ∨ getGroundKind img y x = .ok Grass := by
  rw [getGroundKind_eq img hw hh]
  have hx := clampCoord_range img.width hw x
  have hy := clampCoord_range img.height hh y
  obtain ⟨cx, hcx⟩ : ∃ cx : Nat, (cx : Int) = clampCoord img.width x :=
    ⟨(clampCoord img.width x).toNat, by omega⟩
  obtain ⟨cy, hcy⟩ : ∃ cy : Nat, (cy : Int) = clampCoord img.height y :=
    ⟨(clampCoord img.height y).toNat, by omega⟩
  rw [← hcx, ← hcy]
  have h := hp cx (by omega) cy (by omega)
  rcases calcGroundKind_cases (img.At cx cy) with h1 | h1 | ⟨e, h1⟩
  · exact Or.inl h1
  · exact Or.inr h1
  · rw [h1] at h; simp [Except.isOk, Except.toBool] at h

/-! ## Autotile resolver -/

theorem edgeKind_spec (off : Offsets) (img : Image) (hp : PaletteImage img)
    (hw : 0 < img.width) (hh : 0 < img.height) (y x : Int) (i : Nat) :
    ∃ ka kb kc : Nat,
      getGroundKind img (y + off.a_y i) (x + off.a_x i) = .ok ka ∧
      getGroundKind img (y + off.b_y i) (x + off.b_x i) = .ok kb ∧
      getGroundKind img (y + off.c_y i) (x + off.c_x i) = .ok kc ∧
      edgeKind off img y x i = .ok (ka ||| kb ||| kc) ∧
      (ka ||| kb ||| kc) = (if ka = Ground ∧ kb = Ground ∧ kc = Ground then 0 else 1) := by
  unfold edgeKind
  rcases getGroundKind_kind img hp hw hh (y + off.a_y i) (x + off.a_x i) with h1 | h1 <;>
  rcases getGroundKind_kind img hp hw hh (y + off.b_y i) (x + off.b_x i) with h2 | h2 <;>
  rcases getGroundKind_kind img hp hw hh (y + off.c_y i) (x + off.c_x i) with h3 | h3 <;>
  exact ⟨_, _, _, h1, h2, h3, by rw [h1, h2, h3]; rfl, by decide⟩

theorem calcFilename_ground (off : Offsets) (img : Image) (y x : Int) (e0 e1 e2 e3 : Nat)
    (hg : getGroundKind img y x = .ok Ground)
    (h0 : edgeKind off img y x 0 = .ok e0) (h1 : edgeKind off img y x 1 = .ok e1)
    (h2 : edgeKind off img y x 2 = .ok e2) (h3 : edgeKind off img y x 3 = .ok e3) :
    calcFilename off img y x =
      .ok (toString (0 ||| (e0 <<< 1) ||| e3) ++ toString (0 ||| e0 ||| (e1 <<< 1)) ++
        toString (0 ||| e1 ||| (e2 <<< 1)) ++ toString (0 ||| e2 ||| (e3 <<< 1))) := by
  have hr : List.range 4 = [0, 1, 2, 3] := by decide
  simp [calcFilename, hg, hr, tileStep, h0, h1, h2, h3, Ground, Grass, bind, Except.bind,
    pure, Except.pure]

theorem calcFilename_grass (off : Offsets) (img : Image) (y x : Int)
    (hg : getGroundKind img y x = .ok Grass) :
    calcFilename off img y x = .ok "3333" := by
  simp [calcFilename, hg, bind, Except.bind, pure, Except.pure]

theorem edgeKind_bit (off : Offsets) (img : Image) (hp : PaletteImage img)
    (hw : 0 < img.width) (hh : 0 < img.height) (y x : Int) (i : Nat) :
    edgeKind off img y x i = .ok 0 ∨ edgeKind off img y x i = .ok 1 := by
  obtain ⟨ka, kb, kc, -, -, -, he, hif⟩ := edgeKind_spec off img hp hw hh y x i
  rw [he, hif]
  split_ifs
  · exact Or.inl rfl
  · exact Or.inr rfl

/-- C1: in an image built purely from accepted palette colours, for every
cell `(y, x)` of it, `calcFilename` returns "3333" when the cell is
Grass-kind, and in every case it returns a name which, followed by ".png",
is one of the 16 entries of `tiles`. This holds whatever the six neighbour
offsets are. -/
theorem calcFilename_in_catalogue (off : Offsets) (img : Image) (hp : PaletteImage img)
    (y x : Int) (hy0 : 0 ≤ y) (hy : y < img.height) (hx0 : 0 ≤ x) (hx : x < img.width) :
    (getGroundKind img y x = .ok Grass → calcFilename off img y x = .ok "3333") ∧
    ∃ name, calcFilename off img y x = .ok name ∧ name ++ ".png" ∈ tiles := by
  have hw : 0 < img.width := by omega
  have hh : 0 < img.height := by omega
  refine ⟨calcFilename_grass off img y x, ?_⟩
  rcases getGroundKind_kind img hp hw hh y x with hg | hg
  · rcases edgeKind_bit off img hp hw hh y x 0 with h0 | h0 <;>
    rcases edgeKind_bit off img hp hw hh y x 1 with h1 | h1 <;>
    rcases edgeKind_bit off img hp hw hh y x 2 with h2 | h2 <;>
    rcases edgeKind_bit off img hp hw hh y x 3 with h3 | h3 <;>
    exact ⟨_, calcFilename_ground off img y x _ _ _ _ hg h0 h1 h2 h3, by decide⟩
  · exact ⟨"3333", calcFilename_grass off img y x hg, by decide⟩

/-- The cell below the grass pixel of `islandImage` gets a catalogue name. -/
theorem calcFilename_in_catalogue_witness :
    PaletteImage islandImage ∧
    (getGroundKind islandImage 2 1 = .ok Grass →
      calcFilename trigOffsets islandImage 2 1 = .ok "3333") ∧
    ∃ name, calcFilename trigOffsets islandImage 2 1 = .ok name ∧ name ++ ".png" ∈ tiles :=
  ⟨by unfold PaletteImage; decide,
   calcFilename_in_catalogue trigOffsets islandImage (by unfold PaletteImage; decide) 2 1
    (by decide) (by decide) (by decide) (by decide)⟩

/-- C2: for every Ground-kind cell of an image built from accepted palette
colours, with `e i` the bitwise OR of the kinds of the three neighbours
sampled in direction `i` (0 if all three are Ground, 1 if any is Grass), the
name returned by `calcFilename` is the string of the four decimal digits
`d 0, d 1, d 2, d 3` with `d i = 2 * e i + e ((i + 3) mod 4)`, and every
digit is at most 3. -/
theorem calcFilename_digits (off : Offsets) (img : Image) (hp : PaletteImage img)
    (y x : Int) (hy0 : 0 ≤ y) (hy : y < img.height) (hx0 : 0 ≤ x) (hx : x < img.width)
    (hg : getGroundKind img y x = .ok Ground) :
    ∃ e : Nat → Nat,
      (∀ i, i < 4 → ∃ ka kb kc : Nat,
        getGroundKind img (y + off.a_y i) (x + off.a_x i) = .ok ka ∧
        getGroundKind img (y + off.b_y i) (x + off.b_x i) = .ok kb ∧
        getGroundKind img (y + off.c_y i) (x + off.c_x i) = .ok kc ∧
        e i = ka ||| kb ||| kc ∧
        e i = (if ka = Ground ∧ kb = Ground ∧ kc = Ground then 0 else 1)) ∧
      calcFilename off img y x =
        .ok (String.mk [Nat.digitChar (cornerDigit e 0), Nat.digitChar (cornerDigit e 1),
          Nat.digitChar (cornerDigit e 2), Nat.digitChar (cornerDigit e 3)]) ∧
      ∀ i, i < 4 → cornerDigit e i ≤ 3 := by
  have hw : 0 < img.width := by omega
  have hh : 0 < img.height := by omega
  obtain ⟨a0, b0, c0, ha0, hb0, hc0, he0, hi0⟩ := edgeKind_spec off img hp hw hh y x 0
  obtain ⟨a1, b1, c1, ha1, hb1, hc1, he1, hi1⟩ := edgeKind_spec off img hp hw hh y x 1
  obtain ⟨a2, b2, c2, ha2, hb2, hc2, he2, hi2⟩ := edgeKind_spec off img hp hw hh y x 2
  obtain ⟨a3, b3, c3, ha3, hb3, hc3, he3, hi3⟩ := edgeKind_spec off img hp hw hh y x 3
  have hname := calcFilename_ground off img y x _ _ _ _ hg he0 he1 he2 he3
  have q0 : a0 ||| b0 ||| c0 = 0 ∨ a0 ||| b0 ||| c0 = 1 := by rw [hi0]; split_ifs <;> simp
  have q1 : a1 ||| b1 ||| c1 = 0 ∨ a1 ||| b1 ||| c1 = 1 := by rw [hi1]; split_ifs <;> simp
  have q2 : a2 ||| b2 ||| c2 = 0 ∨ a2 ||| b2 ||| c2 = 1 := by rw [hi2]; split_ifs <;> simp
  have q3 : a3 ||| b3 ||| c3 = 0 ∨ a3 ||| b3 ||| c3 = 1 := by rw [hi3]; split_ifs <;> simp
  refine ⟨fun i => [a0 ||| b0 ||| c0, a1 ||| b1 ||| c1, a2 ||| b2 ||| c2,
    a3 ||| b3 ||| c3].getD i 0, ?_, ?_, ?_⟩
  · intro i hi
    interval_cases i
    · exact ⟨a0, b0, c0, ha0, hb0, hc0, rfl, hi0⟩
    · exact ⟨a1, b1, c1, ha1, hb1, hc1, rfl, hi1⟩
    · exact ⟨a2, b2, c2, ha2, hb2, hc2, rfl, hi2⟩
    · exact ⟨a3, b3, c3, ha3, hb3, hc3, rfl, hi3⟩
  · rw [hname]
    simp only [cornerDigit, List.getD_cons_zero, List.getD_cons_succ]
    rcases q0 with h | h <;> rcases q1 with k | k <;> rcases q2 with m | m <;>
      rcases q3 with n | n <;> rw [h, k, m, n] <;> decide
  · intro i hi
    simp only [cornerDigit]
    interval_cases i <;>
    rcases q0 with h | h <;> rcases q1 with k | k <;> rcases q2 with m | m <;>
      rcases q3 with n | n <;> simp [h, k, m, n]

/-- The digits of the name of the cell below the grass pixel of `islandImage`. -/
theorem calcFilename_digits_witness :
    ∃ e : Nat → Nat,
      (∀ i, i < 4 → ∃ ka kb kc : Nat,
        getGroundKind islandImage (2 + trigOffsets.a_y i) (1 + trigOffsets.a_x i) = .ok ka ∧
        getGroundKind islandImage (2 + trigOffsets.b_y i) (1 + trigOffsets.b_x i) = .ok kb ∧
        getGroundKind islandImage (2 + trigOffsets.c_y i) (1 + trigOffsets.c_x i) = .ok kc ∧
        e i = ka ||| kb ||| kc ∧
        e i = (if ka = Ground ∧ kb = Ground ∧ kc = Ground then 0 else 1)) ∧
      calcFilename trigOffsets islandImage 2 1 =
        .ok (String.mk [Nat.digitChar (cornerDigit e 0), Nat.digitChar (cornerDigit e 1),
          Nat.digitChar (cornerDigit e 2), Nat.digitChar (cornerDigit e 3)]) ∧
      ∀ i, i < 4 → cornerDigit e i ≤ 3 :=
  calcFilename_digits trigOffsets islandImage (by unfold PaletteImage; decide) 2 1
    (by decide) (by decide) (by decide) (by decide) (by decide)

/-! ## Wall and object predicates -/

theorem isObject_eq (img : Image) (y x : Int) :
    isObject img y x =
      (isWall img y x && (isWall img (y + 1) x || isWall img (y - 1) x ||
        isWall img y (x + 1) || isWall img y (x - 1))) := by
  unfold isObject
  cases isWall img y x <;> simp

theorem isWallClamped_eq (img : Image) (y x v u : Int)
    (hy0 : 0 ≤ y) (hy : y < img.height) (hx0 : 0 ≤ x) (hx : x < img.width)
    (hout : ∀ v u : Int, (v < 0 ∨ (img.height : Int) ≤ v ∨ u < 0 ∨ (img.width : Int) ≤ u) →
      isWall img v u = true)
    (hc : isWall img y x = true)
    (hn : (v = y ∧ (u = x + 1 ∨ u = x - 1)) ∨ (u = x ∧ (v = y + 1 ∨ v = y - 1))) :
    isWall img v u = isWallClamped img v u := by
  unfold isWallClamped
  by_cases hin : 0 ≤ v ∧ v < img.height ∧ 0 ≤ u ∧ u < img.width
  · have h1 : clampCoord img.height v = v := by unfold clampCoord; omega
    have h2 : clampCoord img.width u = u := by unfold clampCoord; omega
    rw [h1, h2]
  · have h1 : clampCoord img.height v = y := by unfold clampCoord; omega
    have h2 : clampCoord img.width u = x := by unfold clampCoord; omega
    rw [h1, h2, hc]
    exact hout v u (by omega)

/-- C7 as stated fails: in a 1x1 image of one white pixel whose reader
returns opaque black outside the bounds, the clamped neighbours of the cell
are the cell itself, a wall, so the stated rule makes the cell an object;
`isObject` reads the four neighbours unclamped, finds no wall and returns
false. -/
theorem isObject_clamped_counterexample :
    ¬ (isObject loneWallImage 0 0 = true ↔ isObjectClampedSpec loneWallImage 0 0 = true) := by
  decide

/-- C7, amended: `isObject img y x` holds if and only if the cell `(y, x)` is a
wall and at least one of the pixels the image's reader returns at `(y+1, x)`,
`(y-1, x)`, `(y, x+1)`, `(y, x-1)`, unclamped, is a wall. For a cell inside an
image whose reader returns wall colours outside the bounds this is the same as
the rule with clamped neighbours. In particular every cell of a 3x3 all-wall
block is an object, and a wall pixel whose 4 neighbours are all non-wall is
not an object. -/
theorem isObject_iff (img : Image) (y x : Int) :
    (isObject img y x = true ↔
      isWall img y x = true ∧
        (isWall img (y + 1) x = true ∨ isWall img (y - 1) x = true ∨
          isWall img y (x + 1) = true ∨ isWall img y (x - 1) = true)) ∧
    ((∀ v u : Int, (v < 0 ∨ (img.height : Int) ≤ v ∨ u < 0 ∨ (img.width : Int) ≤ u) →
        isWall img v u = true) →
      0 ≤ y → y < img.height → 0 ≤ x → x < img.width →
      isObject img y x = isObjectClampedSpec img y x) ∧
    ((∀ dy dx : Int, 0 ≤ dy → dy ≤ 2 → 0 ≤ dx → dx ≤ 2 →
        isWall img (y + dy) (x + dx) = true) →
      ∀ dy dx : Int, 0 ≤ dy → dy ≤ 2 → 0 ≤ dx → dx ≤ 2 →
        isObject img (y + dy) (x + dx) = true) ∧
    (isWall img y x = true → isWall img (y + 1) x = false → isWall img (y - 1) x = false →
      isWall img y (x + 1) = false → isWall img y (x - 1) = false →
      isObject img y x = false) := by
  refine ⟨?_, ?_, ?_, ?_⟩
  · rw [isObject_eq]
    simp only [Bool.and_eq_true, Bool.or_eq_true, or_assoc]
  · intro hout hy0 hy hx0 hx
    rw [isObject_eq]
    unfold isObjectClampedSpec
    cases hc : isWall img y x
    · rfl
    · rw [isWallClamped_eq img y x (y + 1) x hy0 hy hx0 hx hout hc (by omega),
        isWallClamped_eq img y x (y - 1) x hy0 hy hx0 hx hout hc (by omega),
        isWallClamped_eq img y x y (x + 1) hy0 hy hx0 hx hout hc (by omega),
        isWallClamped_eq img y x y (x - 1) hy0 hy hx0 hx hout hc (by omega)]
  · intro hblock dy dx h1 h2 h3 h4
    rw [isObject_eq, hblock dy dx h1 h2 h3 h4]
    by_cases hd : dy ≤ 1
    · have h := hblock (dy + 1) dx (by omega) (by omega) h3 h4
      rw [← add_assoc] at h
      simp [h]
    · have h := hblock (dy - 1) dx (by omega) (by omega) h3 h4
      have e : y + (dy - 1) = y + dy - 1 := by ring
      rw [e] at h
      simp [h]
  · intro h0 h1 h2 h3 h4
    rw [isObject_eq, h0, h1, h2, h3, h4]
    rfl

theorem wallBlockImage_isWall (v u : Int) : isWall wallBlockImage v u = true := by
  unfold isWall wallBlockImage
  simp only []
  split_ifs <;> first | rfl | (exfalso; revert ‹¬ _›; decide)

/-- The all-wall block and the lone wall pixel. -/
theorem isObject_iff_witness :
    isObject wallBlockImage 1 1 = isObjectClampedSpec wallBlockImage 1 1 ∧
    (∀ dy dx : Int, 0 ≤ dy → dy ≤ 2 → 0 ≤ dx → dx ≤ 2 →
      isObject wallBlockImage (0 + dy) (0 + dx) = true) ∧
    isObject loneWallImage 0 0 = false :=
  ⟨(isObject_iff wallBlockImage 1 1).2.1 (fun v u _ => wallBlockImage_isWall v u)
      (by decide) (by decide) (by decide) (by decide),
   (isObject_iff wallBlockImage 0 0).2.2.1
      (fun dy dx _ _ _ _ => wallBlockImage_isWall (0 + dy) (0 + dx)),
   (isObject_iff loneWallImage 0 0).2.2.2 (by decide) (by decide) (by decide) (by decide)
      (by decide)⟩

/-! ## Object map builder -/

theorem sprintf02x_length (v : Nat) : 2 ≤ (sprintf02x v).length := by
  unfold sprintf02x
  rw [List.length_append, List.length_replicate]
  omega

theorem colorString_eq_empty (col : Color) :
    colorString col = "" ↔ (get8bitColor col).2.2.2 = 0 := by
  unfold colorString
  by_cases ha : (get8bitColor col).2.2.2 = 0
  · simp [ha]
  · simp only [beq_iff_eq, ha, if_false, iff_false]
    intro h
    have hl := congrArg String.length h
    have h1 := sprintf02x_length (get8bitColor col).1
    simp only [String.length, List.length_map, List.length_append, List.length_nil] at hl
    omega

theorem loop_append_eq_map {α : Type} (f : Nat → α) (xs : List Nat) (acc : List α) :
    xs.foldl (fun r x => r ++ [f x]) acc = acc ++ xs.map f := by
  induction xs generalizing acc with
  | nil => simp
  | cons x xs ih => simp [ih]

theorem cellAt_map_range {h w : Nat} (f : Nat → Nat → String) {y x : Nat}
    (hy : y < h) (hx : x < w) :
    cellAt ((List.range h).map fun y => (List.range w).map fun x => f y x) y x
      = some (f y x) := by
  simp [cellAt, hy, hx]

theorem shaped_map_range (h w : Nat) (f : Nat → Nat → String) :
    Shaped h w ((List.range h).map fun y => (List.range w).map fun x => f y x) := by
  constructor
  · simp
  · intro row hrow
    simp only [List.mem_map] at hrow
    obtain ⟨y, -, rfl⟩ := hrow
    simp

theorem setCell_spec {h w : Nat} {g : List (List String)} (hg : Shaped h w g)
    {y x : Nat} (hy : y < h) (hx : x < w) (v : String) :
    ∃ g', setCell g y x v = .ok g' ∧ Shaped h w g' ∧
      ∀ y' x', cellAt g' y' x' = if y' = y ∧ x' = x then some v else cellAt g y' x' := by
  obtain ⟨hl, hr⟩ := hg
  have hyl : y < g.length := by omega
  have hrow : g[y]? = some g[y] := List.getElem?_eq_getElem hyl
  have hlen : g[y].length = w := hr _ (List.getElem_mem hyl)
  refine ⟨g.set y (g[y].set x v), ?_, ⟨?_, ?_⟩, ?_⟩
  · simp [setCell, hrow, hlen, hx]
  · simp [hl]
  · intro row hmem
    rcases List.mem_or_eq_of_mem_set hmem with hm | hm
    · exact hr _ hm
    · subst hm
      simp [hlen]
  · intro y' x'
    unfold cellAt
    rw [List.getElem?_set]
    by_cases hyy : y = y'
    · subst hyy
      by_cases hxx : x = x'
      · subst hxx
        simp [List.getElem?_set, hyl, hlen, hx]
      · have hxx' : ¬ x' = x := fun e => hxx e.symm
        simp [List.getElem?_set, hyl, hxx, hxx']
    · have hyy' : ¬ y' = y := fun e => hyy e.symm
      simp [hyy, hyy']

theorem objectStep_skip (oj : ObjectJSON) (objimg : Image) (y x : Nat)
    (g : List (List String)) (ha : (get8bitColor (objimg.At x y)).2.2.2 = 0) :
    objectStep oj objimg y g x = .ok g := by
  simp [objectStep, (colorString_eq_empty _).2 ha]

theorem objectStep_unknown (oj : ObjectJSON) (objimg : Image) (y x : Nat)
    (g : List (List String)) (hu : UnknownOverlay oj objimg y x) :
    objectStep oj objimg y g x =
      .error (.unknownObjectColor (colorString (objimg.At x y)) y x) := by
  obtain ⟨ha, hl⟩ := hu
  have hne : ¬ colorString (objimg.At x y) = "" := fun e => ha ((colorString_eq_empty _).1 e)
  simp [objectStep, hne, hl]

theorem objectStep_known (oj : ObjectJSON) (objimg : Image) (y x : Nat)
    (g : List (List String)) (obj : String)
    (ha : (get8bitColor (objimg.At x y)).2.2.2 ≠ 0)
    (hl : oj.Objects.lookup (colorString (objimg.At x y)) = some obj) :
    objectStep oj objimg y g x = setCell g y x obj := by
  have hne : ¬ colorString (objimg.At x y) = "" := fun e => ha ((colorString_eq_empty _).1 e)
  simp [objectStep, hne, hl]

theorem rowLoop_spec (oj : ObjectJSON) (objimg : Image) {h w : Nat} (y : Nat) (hy : y < h)
    (xs : List Nat) (hxs : ∀ x ∈ xs, x < w) (g : List (List String)) (hg : Shaped h w g) :
    ((∃ x ∈ xs, UnknownOverlay oj objimg y x) →
      ∃ c x', xs.foldlM (objectStep oj objimg y) g = .error (.unknownObjectColor c y x')) ∧
    ((∀ x ∈ xs, ¬ UnknownOverlay oj objimg y x) →
      ∃ g', xs.foldlM (objectStep oj objimg y) g = .ok g' ∧ Shaped h w g' ∧
        ∀ y' x', cellAt g' y' x' =
          if y' = y ∧ x' ∈ xs ∧ (get8bitColor (objimg.At x' y)).2.2.2 ≠ 0
          then oj.Objects.lookup (colorString (objimg.At x' y)) else cellAt g y' x') := by
  induction xs generalizing g with
  | nil =>
    refine ⟨fun ⟨x, hx, _⟩ => absurd hx (List.not_mem_nil x), fun _ => ⟨g, rfl, hg, ?_⟩⟩
    intro y' x'
    simp
  | cons x xs ih =>
    have hxs' : ∀ x ∈ xs, x < w := fun a ha => hxs a (List.mem_cons_of_mem _ ha)
    have hxw : x < w := hxs x (List.mem_cons_self _ _)
    by_cases ha : (get8bitColor (objimg.At x y)).2.2.2 = 0
    · have hstep := objectStep_skip oj objimg y x g ha
      have hfold : (x :: xs).foldlM (objectStep oj objimg y) g =
          xs.foldlM (objectStep oj objimg y) g := by
        rw [List.foldlM_cons, hstep]; rfl
      rw [hfold]
      obtain ⟨ih1, ih2⟩ := ih hxs' g hg
      refine ⟨?_, ?_⟩
      · rintro ⟨x0, hx0, hbad⟩
        rcases List.mem_cons.1 hx0 with e | hmem
        · subst e; exact absurd ha hbad.1
        · exact ih1 ⟨x0, hmem, hbad⟩
      · intro hall
        obtain ⟨g', hok, hsh, hcell⟩ := ih2 (fun a ha' => hall a (List.mem_cons_of_mem _ ha'))
        refine ⟨g', hok, hsh, ?_⟩
        intro y' x'
        rw [hcell]
        by_cases hx' : x' = x
        · subst hx'; simp [ha]
        · simp [hx']
    · cases hl : oj.Objects.lookup (colorString (objimg.At x y)) with
      | none =>
        have hstep := objectStep_unknown oj objimg y x g ⟨ha, hl⟩
        have hfold : (x :: xs).foldlM (objectStep oj objimg y) g =
            .error (.unknownObjectColor (colorString (objimg.At x y)) y x) := by
          rw [List.foldlM_cons, hstep]; rfl
        rw [hfold]
        exact ⟨fun _ => ⟨_, _, rfl⟩,
          fun hall => absurd ⟨ha, hl⟩ (hall x (List.mem_cons_self _ _))⟩
      | some obj =>
        obtain ⟨g1, hset, hsh1, hcell1⟩ := setCell_spec hg hy hxw obj
        have hfold : (x :: xs).foldlM (objectStep oj objimg y) g =
            xs.foldlM (objectStep oj objimg y) g1 := by
          rw [List.foldlM_cons, objectStep_known oj objimg y x g obj ha hl, hset]; rfl
        rw [hfold]
        obtain ⟨ih1, ih2⟩ := ih hxs' g1 hsh1
        refine ⟨?_, ?_⟩
        · rintro ⟨x0, hx0, hbad⟩
          rcases List.mem_cons.1 hx0 with e | hmem
          · subst e
            have := hbad.2
            rw [hl] at this
            cases this
          · exact ih1 ⟨x0, hmem, hbad⟩
        · intro hall
          obtain ⟨g', hok, hsh, hcell⟩ := ih2 (fun a ha' => hall a (List.mem_cons_of_mem _ ha'))
          refine ⟨g', hok, hsh, ?_⟩
          intro y' x'
          rw [hcell, hcell1]
          by_cases hy' : y' = y
          · by_cases hx' : x' = x
            · subst hx'
              simp [hy', ha, hl]
            · simp [hy', hx']
          · simp [hy']

theorem gridLoop_spec (oj : ObjectJSON) (objimg : Image) {h w : Nat}
    (xs : List Nat) (hxs : ∀ x ∈ xs, x < w) (ys : List Nat) (hys : ∀ y ∈ ys, y < h)
    (g : List (List String)) (hg : Shaped h w g) :
    ((∃ y ∈ ys, ∃ x ∈ xs, UnknownOverlay oj objimg y x) →
      ∃ c y' x', ys.foldlM (fun ret y => xs.foldlM (objectStep oj objimg y) ret) g =
        .error (.unknownObjectColor c y' x')) ∧
    ((∀ y ∈ ys, ∀ x ∈ xs, ¬ UnknownOverlay oj objimg y x) →
      ∃ g', ys.foldlM (fun ret y => xs.foldlM (objectStep oj objimg y) ret) g = .ok g' ∧
        Shaped h w g' ∧
        ∀ y' x', cellAt g' y' x' =
          if y' ∈ ys ∧ x' ∈ xs ∧ (get8bitColor (objimg.At x' y')).2.2.2 ≠ 0
          then oj.Objects.lookup (colorString (objimg.At x' y')) else cellAt g y' x') := by
  induction ys generalizing g with
  | nil =>
    refine ⟨fun ⟨y, hy, _⟩ => absurd hy (List.not_mem_nil y), fun _ => ⟨g, rfl, hg, ?_⟩⟩
    intro y' x'
    simp
  | cons y ys ih =>
    have hys' : ∀ a ∈ ys, a < h := fun a ha => hys a (List.mem_cons_of_mem _ ha)
    have hyh : y < h := hys y (List.mem_cons_self _ _)
    obtain ⟨r1, r2⟩ := rowLoop_spec oj objimg y hyh xs hxs g hg
    by_cases hrow : ∃ x ∈ xs, UnknownOverlay oj objimg y x
    · obtain ⟨c, x', herr⟩ := r1 hrow
      have hfold : (y :: ys).foldlM (fun ret y => xs.foldlM (objectStep oj objimg y) ret) g =
          .error (.unknownObjectColor c y x') := by
        rw [List.foldlM_cons, herr]; rfl
      rw [hfold]
      refine ⟨fun _ => ⟨_, _, _, rfl⟩, fun hall => ?_⟩
      obtain ⟨x0, hx0, hbad⟩ := hrow
      exact absurd hbad (hall y (List.mem_cons_self _ _) x0 hx0)
    · have hrow' : ∀ x ∈ xs, ¬ UnknownOverlay oj objimg y x :=
        fun x hx hbad => hrow ⟨x, hx, hbad⟩
      obtain ⟨g1, hok1, hsh1, hcell1⟩ := r2 hrow'
      have hfold : (y :: ys).foldlM (fun ret y => xs.foldlM (objectStep oj objimg y) ret) g =
          ys.foldlM (fun ret y => xs.foldlM (objectStep oj objimg y) ret) g1 := by
        rw [List.foldlM_cons, hok1]; rfl
      rw [hfold]
      obtain ⟨ih1, ih2⟩ := ih hys' g1 hsh1
      refine ⟨?_, ?_⟩
      · rintro ⟨y0, hy0, x0, hx0, hbad⟩
        rcases List.mem_cons.1 hy0 with e | hmem
        · subst e; exact absurd hbad (hrow' x0 hx0)
        · exact ih1 ⟨y0, hmem, x0, hx0, hbad⟩
      · intro hall
        obtain ⟨g', hok, hsh, hcell⟩ :=
          ih2 (fun a ha' => hall a (List.mem_cons_of_mem _ ha'))
        refine ⟨g', hok, hsh, ?_⟩
        intro y' x'
        rw [hcell, hcell1]
        by_cases hy' : y' = y
        · subst hy'
          by_cases hc : x' ∈ xs ∧ (get8bitColor (objimg.At x' y')).2.2.2 ≠ 0
          · simp [hc.1, hc.2]
          · have hc' : ¬ (x' ∈ xs ∧ ¬ (get8bitColor (objimg.At x' y')).2.2.2 = 0) := hc
            simp [hc']
        · simp [hy']

theorem createObjectMap_spec (oj : ObjectJSON) (grdimg objimg : Image) :
    ((∃ y, y < grdimg.height ∧ ∃ x, x < grdimg.width ∧ UnknownOverlay oj objimg y x) →
      ∃ c y' x', createObjectMap oj grdimg objimg = .error (.unknownObjectColor c y' x')) ∧
    ((∀ y, y < grdimg.height → ∀ x, x < grdimg.width → ¬ UnknownOverlay oj objimg y x) →
      ∃ ret, createObjectMap oj grdimg objimg = .ok ret ∧
        Shaped grdimg.height grdimg.width ret ∧
        ∀ y x, y < grdimg.height → x < grdimg.width →
          cellAt ret y x =
            if (get8bitColor (objimg.At x y)).2.2.2 ≠ 0
            then oj.Objects.lookup (colorString (objimg.At x y))
            else some (if isObject grdimg y x then oj.Transparent else "")) := by
  have hpass : (List.range grdimg.height).foldl
      (fun ret (y : Nat) =>
        ret ++ [(List.range grdimg.width).foldl
          (fun r (x : Nat) => r ++ [if isObject grdimg y x then oj.Transparent else ""]) []])
      [] =
      (List.range grdimg.height).map fun y => (List.range grdimg.width).map fun x =>
        if isObject grdimg (y : Nat) (x : Nat) then oj.Transparent else "" := by
    rw [loop_append_eq_map
      (fun (y : Nat) => (List.range grdimg.width).foldl
        (fun r (x : Nat) => r ++ [if isObject grdimg y x then oj.Transparent else ""]) [])]
    simp only [List.nil_append]
    refine List.map_congr_left (fun y _ => ?_)
    rw [loop_append_eq_map
      (fun (x : Nat) => if isObject grdimg y x then oj.Transparent else "")]
    simp
  obtain ⟨s1, s2⟩ := gridLoop_spec oj objimg (List.range grdimg.width)
    (fun x hx => List.mem_range.1 hx) (List.range grdimg.height)
    (fun y hy => List.mem_range.1 hy) _
    (shaped_map_range grdimg.height grdimg.width
      (fun y x => if isObject grdimg (y : Nat) (x : Nat) then oj.Transparent else ""))
  unfold createObjectMap
  simp only []
  rw [hpass]
  refine ⟨?_, ?_⟩
  · rintro ⟨y, hy, x, hx, hbad⟩
    exact s1 ⟨y, List.mem_range.2 hy, x, List.mem_range.2 hx, hbad⟩
  · intro hall
    obtain ⟨ret, hok, hsh, hcell⟩ :=
      s2 (fun y hy x hx => hall y (List.mem_range.1 hy) x (List.mem_range.1 hx))
    refine ⟨ret, hok, hsh, ?_⟩
    intro y x hy hx
    rw [hcell, cellAt_map_range _ hy hx]
    simp [hy, hx]

/-- C8: whenever `createObjectMap` succeeds, at every cell `(y, x)` of the
grid whose overlay pixel has alpha different from 0 and whose colour string is
a key of the colour-to-texture table, the output entry `ret[y][x]` is the
mapped texture identifier, whatever the first pass had put there. -/
theorem createObjectMap_overlay_wins (oj : ObjectJSON) (grdimg objimg : Image)
    (ret : List (List String)) (hok : createObjectMap oj grdimg objimg = .ok ret)
    (y x : Nat) (hy : y < grdimg.height) (hx : x < grdimg.width) (obj : String)
    (ha : (get8bitColor (objimg.At x y)).2.2.2 ≠ 0)
    (hl : oj.Objects.lookup (colorString (objimg.At x y)) = some obj) :
    cellAt ret y x = some obj := by
  obtain ⟨s1, s2⟩ := createObjectMap_spec oj grdimg objimg
  by_cases hbad : ∃ y, y < grdimg.height ∧ ∃ x, x < grdimg.width ∧ UnknownOverlay oj objimg y x
  · obtain ⟨c, y', x', herr⟩ := s1 hbad
    rw [hok] at herr
    cases herr
  · obtain ⟨ret', hok', -, hcell⟩ :=
      s2 (fun y hy x hx hu => hbad ⟨y, hy, x, hx, hu⟩)
    rw [hok] at hok'
    cases hok'
    rw [hcell y x hy hx, if_pos ha, hl]

/-- The red overlay pixel replaces the placeholder in the middle of the block. -/
theorem createObjectMap_overlay_wins_witness :
    createObjectMap demoConfig wallBlockImage demoOverlay =
      .ok [["clear.png", "clear.png", "clear.png"], ["clear.png", "tree.png", "clear.png"],
        ["clear.png", "clear.png", "clear.png"]] ∧
    isObject wallBlockImage 1 1 = true ∧
    cellAt [["clear.png", "clear.png", "clear.png"], ["clear.png", "tree.png", "clear.png"],
        ["clear.png", "clear.png", "clear.png"]] 1 1 = some "tree.png" :=
  ⟨by decide, by decide,
   createObjectMap_overlay_wins demoConfig wallBlockImage demoOverlay _ (by decide) 1 1
    (by decide) (by decide) "tree.png" (by decide) (by decide)⟩

/-- C9: `createObjectMap` panics if and only if some cell `(y, x)` within the
ground image's dimensions has an overlay pixel with alpha different from 0
whose colour string is no key of the colour-to-texture table; the panic is
then the unknown-object-colour one, and when no such cell exists a grid is
returned. -/
theorem createObjectMap_fails_iff (oj : ObjectJSON) (grdimg objimg : Image) :
    ((∃ e, createObjectMap oj grdimg objimg = .error e) ↔
      ∃ y, y < grdimg.height ∧ ∃ x, x < grdimg.width ∧ UnknownOverlay oj objimg y x) ∧
    (∀ e, createObjectMap oj grdimg objimg = .error e →
      ∃ c y x, e = .unknownObjectColor c y x) ∧
    ((¬ ∃ y, y < grdimg.height ∧ ∃ x, x < grdimg.width ∧ UnknownOverlay oj objimg y x) →
      ∃ ret, createObjectMap oj grdimg objimg = .ok ret) := by
  obtain ⟨s1, s2⟩ := createObjectMap_spec oj grdimg objimg
  by_cases hbad : ∃ y, y < grdimg.height ∧ ∃ x, x < grdimg.width ∧ UnknownOverlay oj objimg y x
  · obtain ⟨c, y', x', herr⟩ := s1 hbad
    refine ⟨⟨fun _ => hbad, fun _ => ⟨_, herr⟩⟩, ?_, fun hn => absurd hbad hn⟩
    intro e he
    rw [herr] at he
    cases he
    exact ⟨_, _, _, rfl⟩
  · obtain ⟨ret, hok, -, -⟩ := s2 (fun y hy x hx hu => hbad ⟨y, hy, x, hx, hu⟩)
    refine ⟨⟨?_, fun h => absurd h hbad⟩, ?_, fun _ => ⟨ret, hok⟩⟩
    · rintro ⟨e, he⟩
      rw [hok] at he
      cases he
    · intro e he
      rw [hok] at he
      cases he

/-! ## Respawn extractor -/

theorem rowScan_eq (img : Image) (y : Nat) (xs : List Nat) (acc : List RespawnPosition) :
    xs.foldl
        (fun poss (x : Nat) =>
          let c := get8bitColor (img.At x y)
          if isRespawnPosition c.1 c.2.1 c.2.2.1 c.2.2.2 then poss ++ [⟨x, y⟩] else poss)
        acc =
      acc ++ (xs.filter fun x => isMarker img y x).map fun (x : Nat) => ⟨x, y⟩ := by
  induction xs generalizing acc with
  | nil => simp
  | cons x xs ih =>
    rw [List.foldl_cons, ih, List.filter_cons]
    by_cases hm : isMarker img y x = true
    · have hm' := hm
      unfold isMarker at hm'
      simp [hm, hm']
    · have hm' := hm
      unfold isMarker at hm'
      simp [hm, hm']

theorem getRespawnPositions_eq (img : Image) :
    getRespawnPositions img = respawnScanSpec img := by
  have hrows : ∀ (ys : List Nat) (acc : List RespawnPosition),
      ys.foldl
        (fun poss (y : Nat) =>
          (List.range img.width).foldl
            (fun poss (x : Nat) =>
              let c := get8bitColor (img.At x y)
              if isRespawnPosition c.1 c.2.1 c.2.2.1 c.2.2.2 then poss ++ [⟨x, y⟩] else poss)
            poss)
        acc =
      acc ++ ys.flatMap fun y =>
        ((List.range img.width).filter fun x => isMarker img y x).map
          fun (x : Nat) => (⟨x, y⟩ : RespawnPosition) := by
    intro ys
    induction ys with
    | nil => intro acc; simp
    | cons y ys ih =>
      intro acc
      rw [List.foldl_cons, rowScan_eq, ih, List.flatMap_cons, List.append_assoc]
  unfold getRespawnPositions respawnScanSpec
  simp only []
  rw [hrows]
  simp

theorem mem_respawnScanSpec (img : Image) (p : RespawnPosition) :
    p ∈ respawnScanSpec img ↔
      ∃ x y : Nat, x < img.width ∧ y < img.height ∧ isMarker img y x = true ∧
        p = ⟨x, y⟩ := by
  unfold respawnScanSpec
  simp only [List.mem_flatMap, List.mem_map, List.mem_filter, List.mem_range]
  constructor
  · rintro ⟨y, hy, x, ⟨hx, hm⟩, rfl⟩
    exact ⟨x, y, hx, hy, hm, rfl⟩
  · rintro ⟨x, y, hx, hy, hm, rfl⟩
    exact ⟨y, hy, x, ⟨hx, hm⟩, rfl⟩

theorem pairwise_respawnScanSpec (img : Image) :
    (respawnScanSpec img).Pairwise RespawnPosition.before := by
  unfold respawnScanSpec
  rw [List.pairwise_flatMap]
  constructor
  · intro y _
    rw [List.pairwise_map]
    refine List.Pairwise.imp ?_ ((List.pairwise_lt_range img.width).sublist
      (List.filter_sublist _))
    intro a b hab
    exact Or.inr ⟨rfl, Int.ofNat_lt.2 hab⟩
  · refine List.Pairwise.imp ?_ (List.pairwise_lt_range img.height)
    intro a b hab p hp q hq
    simp only [List.mem_map] at hp hq
    obtain ⟨_, _, rfl⟩ := hp
    obtain ⟨_, _, rfl⟩ := hq
    exact Or.inl (Int.ofNat_lt.2 hab)

/-- C10: `getRespawnPositions` returns exactly the positions `{X: x, Y: y}` of
the pixels of the image that satisfy the respawn-marker predicate, each once,
in row-major scan order (`y` ascending, then `x` ascending within a row): the
result is strictly increasing in the lexicographic order on `(y, x)`, has no
repetition, and is empty when the image has no marker pixel. -/
theorem getRespawnPositions_scan (img : Image) :
    getRespawnPositions img = respawnScanSpec img ∧
    (∀ p, p ∈ getRespawnPositions img ↔
      ∃ x y : Nat, x < img.width ∧ y < img.height ∧ isMarker img y x = true ∧
        p = ⟨x, y⟩) ∧
    (getRespawnPositions img).Pairwise RespawnPosition.before ∧
    (getRespawnPositions img).Nodup ∧
    ((∀ x : Nat, x < img.width → ∀ y : Nat, y < img.height → isMarker img y x = false) →
      getRespawnPositions img = []) := by
  rw [getRespawnPositions_eq]
  refine ⟨rfl, mem_respawnScanSpec img, pairwise_respawnScanSpec img, ?_, ?_⟩
  · refine List.Pairwise.imp ?_ (pairwise_respawnScanSpec img)
    intro p q hpq heq
    subst heq
    rcases hpq with h | ⟨_, h⟩ <;> exact lt_irrefl _ h
  · intro hnone
    rw [List.eq_nil_iff_forall_not_mem]
    intro p hp
    obtain ⟨x, y, hx, hy, hm, -⟩ := (mem_respawnScanSpec img p).1 hp
    rw [hnone x hx y hy] at hm
    cases hm

/-- Two markers are listed in scan order; an image without markers gives the empty list. -/
theorem getRespawnPositions_scan_witness :
    getRespawnPositions spawnImage = [⟨2, 0⟩, ⟨0, 1⟩] ∧
    getRespawnPositions islandImage = [] :=
  ⟨(getRespawnPositions_scan spawnImage).1.trans (by decide),
   (getRespawnPositions_scan islandImage).2.2.2.2 (by decide)⟩

/-! ## Tile map builder -/

theorem getGroundKind_ok_kind (img : Image) (y x : Int) (k : Nat)
    (h : getGroundKind img y x = .ok k) : k = Ground ∨ k = Grass := by
  unfold getGroundKind at h
  simp only [] at h
  rcases calcGroundKind_cases (img.At
    (if (img.width : Int) ≤ (if x < 0 then 0 else x) then (img.width : Int) - 1
      else (if x < 0 then 0 else x))
    (if (img.height : Int) ≤ (if y < 0 then 0 else y) then (img.height : Int) - 1
      else (if y < 0 then 0 else y))) with h1 | h1 | ⟨e, h1⟩
  · rw [h1] at h; cases h; exact Or.inl rfl
  · rw [h1] at h; cases h; exact Or.inr rfl
  · rw [h1] at h; cases h

theorem edgeKind_ok_bit (off : Offsets) (img : Image) (y x : Int) (i e : Nat)
    (h : edgeKind off img y x i = .ok e) : e = 0 ∨ e = 1 := by
  unfold edgeKind at h
  cases h1 : getGroundKind img (y + off.a_y i) (x + off.a_x i) with
  | error p => rw [h1] at h; cases h
  | ok ka =>
    cases h2 : getGroundKind img (y + off.b_y i) (x + off.b_x i) with
    | error p => rw [h1, h2] at h; cases h
    | ok kb =>
      cases h3 : getGroundKind img (y + off.c_y i) (x + off.c_x i) with
      | error p => rw [h1, h2, h3] at h; cases h
      | ok kc =>
        rw [h1, h2, h3] at h
        cases h
        rcases getGroundKind_ok_kind _ _ _ _ h1 with a | a <;>
        rcases getGroundKind_ok_kind _ _ _ _ h2 with b | b <;>
        rcases getGroundKind_ok_kind _ _ _ _ h3 with c | c <;>
        subst a b c <;> decide

theorem calcFilename_ok_catalogue (off : Offsets) (img : Image) (y x : Int) (name : String)
    (h : calcFilename off img y x = .ok name) : name ++ ".png" ∈ tiles := by
  have hr : List.range 4 = [0, 1, 2, 3] := by decide
  cases hg : getGroundKind img y x with
  | error p =>
    simp [calcFilename, hg, bind, Except.bind] at h
  | ok k =>
    rcases getGroundKind_ok_kind _ _ _ _ hg with hk | hk
    · subst hk
      cases h0 : edgeKind off img y x 0 with
      | error p =>
        simp [calcFilename, hg, hr, tileStep, h0, Ground, Grass, bind, Except.bind] at h
      | ok e0 =>
        cases h1 : edgeKind off img y x 1 with
        | error p =>
          simp [calcFilename, hg, hr, tileStep, h0, h1, Ground, Grass, bind, Except.bind,
            pure, Except.pure] at h
        | ok e1 =>
          cases h2 : edgeKind off img y x 2 with
          | error p =>
            simp [calcFilename, hg, hr, tileStep, h0, h1, h2, Ground, Grass, bind,
              Except.bind, pure, Except.pure] at h
          | ok e2 =>
            cases h3 : edgeKind off img y x 3 with
            | error p =>
              simp [calcFilename, hg, hr, tileStep, h0, h1, h2, h3, Ground, Grass, bind,
                Except.bind, pure, Except.pure] at h
            | ok e3 =>
              rw [calcFilename_ground off img y x e0 e1 e2 e3 hg h0 h1 h2 h3] at h
              cases h
              rcases edgeKind_ok_bit _ _ _ _ _ _ h0 with a | a <;>
              rcases edgeKind_ok_bit _ _ _ _ _ _ h1 with b | b <;>
              rcases edgeKind_ok_bit _ _ _ _ _ _ h2 with c | c <;>
              rcases edgeKind_ok_bit _ _ _ _ _ _ h3 with d | d <;>
              subst a b c d <;> decide
    · subst hk
      rw [calcFilename_grass off img y x hg] at h
      cases h
      decide

theorem calcFilename_nameAt (off : Offsets) (img : Image) (hp : PaletteImage img)
    (hw : 0 < img.width) (hh : 0 < img.height) (y x : Int) :
    calcFilename off img y x = .ok (nameAt off img y x) := by
  have hex : ∃ name, calcFilename off img y x = .ok name := by
    rcases getGroundKind_kind img hp hw hh y x with hg | hg
    · rcases edgeKind_bit off img hp hw hh y x 0 with h0 | h0 <;>
      rcases edgeKind_bit off img hp hw hh y x 1 with h1 | h1 <;>
      rcases edgeKind_bit off img hp hw hh y x 2 with h2 | h2 <;>
      rcases edgeKind_bit off img hp hw hh y x 3 with h3 | h3 <;>
      exact ⟨_, calcFilename_ground off img y x _ _ _ _ hg h0 h1 h2 h3⟩
    · exact ⟨_, calcFilename_grass off img y x hg⟩
  obtain ⟨name, hn⟩ := hex
  unfold nameAt
  rw [hn]

theorem loopM_append_eq_map {α β : Type} (f : Nat → Except Panic β) (g : Nat → β)
    (k : β → α) (xs : List Nat) (hf : ∀ x ∈ xs, f x = .ok (g x)) (acc : List α) :
    xs.foldlM (fun r x => do
        let v ← f x
        pure (r ++ [k v])) acc = .ok (acc ++ xs.map fun x => k (g x)) := by
  induction xs generalizing acc with
  | nil => simp [pure, Except.pure]
  | cons x xs ih =>
    rw [List.foldlM_cons, hf x (List.mem_cons_self _ _)]
    simp only [bind, Except.bind, pure, Except.pure]
    have h2 := ih (fun a ha => hf a (List.mem_cons_of_mem _ ha)) (acc ++ [k (g x)])
    simp only [bind, Except.bind, pure, Except.pure] at h2
    rw [h2]
    simp

theorem createTileMap_spec (join : String → String → String) (off : Offsets) (base : String)
    (img : Image) (hp : PaletteImage img) :
    createTileMap join off base img =
      .ok ((List.range img.height).map fun y => (List.range img.width).map fun x =>
        join base (nameAt off img (y : Nat) (x : Nat) ++ ".png")) := by
  unfold createTileMap
  simp only []
  by_cases hh : 0 < img.height
  · by_cases hw : 0 < img.width
    · have hrow : ∀ y : Nat, (List.range img.width).foldlM
          (fun r (x : Nat) => do
            let name ← calcFilename off img y x
            pure (r ++ [join base (name ++ ".png")])) [] =
          .ok ((List.range img.width).map fun x =>
            join base (nameAt off img (y : Nat) (x : Nat) ++ ".png")) := by
        intro y
        have h := loopM_append_eq_map (fun (x : Nat) => calcFilename off img y x)
          (fun (x : Nat) => nameAt off img y x) (fun name => join base (name ++ ".png"))
          (List.range img.width) (fun x _ => calcFilename_nameAt off img hp hw hh y x) []
        simpa using h
      have h := loopM_append_eq_map
        (fun (y : Nat) => (List.range img.width).foldlM
          (fun r (x : Nat) => do
            let name ← calcFilename off img y x
            pure (r ++ [join base (name ++ ".png")])) [])
        (fun (y : Nat) => (List.range img.width).map fun x =>
            join base (nameAt off img (y : Nat) (x : Nat) ++ ".png"))
        (fun r => r) (List.range img.height) (fun y _ => hrow y) []
      simpa using h
    · have hw0 : img.width = 0 := by omega
      have h := loopM_append_eq_map
        (fun (y : Nat) => (List.range img.width).foldlM
          (fun r (x : Nat) => do
            let name ← calcFilename off img y x
            pure (r ++ [join base (name ++ ".png")])) [])
        (fun (y : Nat) => (List.range img.width).map fun x =>
            join base (nameAt off img (y : Nat) (x : Nat) ++ ".png"))
        (fun r => r) (List.range img.height)
        (fun y _ => by simp [hw0, pure, Except.pure]) []
      simpa using h
  · have hh0 : img.height = 0 := by omega
    simp [hh0, pure, Except.pure]

theorem uniformGround_palette (img : Image) (hu : UniformGround img) : PaletteImage img := by
  intro x hx y hy
  simp only [calcGroundKind, hu x hx y hy]
  decide

theorem uniformGround_kind (img : Image) (hu : UniformGround img)
    (hw : 0 < img.width) (hh : 0 < img.height) (y x : Int) :
    getGroundKind img y x = .ok Ground := by
  rw [getGroundKind_eq img hw hh]
  have hx := clampCoord_range img.width hw x
  have hy := clampCoord_range img.height hh y
  obtain ⟨cx, hcx⟩ : ∃ cx : Nat, (cx : Int) = clampCoord img.width x :=
    ⟨(clampCoord img.width x).toNat, by omega⟩
  obtain ⟨cy, hcy⟩ : ∃ cy : Nat, (cy : Int) = clampCoord img.height y :=
    ⟨(clampCoord img.height y).toNat, by omega⟩
  rw [← hcx, ← hcy]
  simp only [calcGroundKind, hu cx (by omega) cy (by omega)]
  decide

theorem uniformGround_nameAt (off : Offsets) (img : Image) (hu : UniformGround img)
    (hw : 0 < img.width) (hh : 0 < img.height) (y x : Int) :
    nameAt off img y x = "0000" := by
  have hk := uniformGround_kind img hu hw hh
  have he : ∀ i, edgeKind off img y x i = .ok 0 := by
    intro i
    unfold edgeKind
    rw [hk, hk, hk]
    rfl
  unfold nameAt
  rw [calcFilename_ground off img y x 0 0 0 0 (hk y x) (he 0) (he 1) (he 2) (he 3)]
  decide

/-- C11: for every base directory and every image all of whose pixels are
plain ground `(0, 0, 0, 255)`, `createTileMap` returns a grid of the image's
dimensions whose every entry is `join base "0000.png"`, edge and corner cells
included. This holds whatever the six neighbour offsets are. -/
theorem createTileMap_uniform (join : String → String → String) (off : Offsets)
    (base : String) (img : Image) (hu : UniformGround img) :
    ∃ grid, createTileMap join off base img = .ok grid ∧
      Shaped img.height img.width grid ∧
      ∀ row ∈ grid, ∀ e ∈ row, e = join base "0000.png" := by
  refine ⟨_, createTileMap_spec join off base img (uniformGround_palette img hu),
    shaped_map_range img.height img.width _, ?_⟩
  intro row hrow e he
  simp only [List.mem_map, List.mem_range] at hrow
  obtain ⟨y, hy, rfl⟩ := hrow
  simp only [List.mem_map, List.mem_range] at he
  obtain ⟨x, hx, rfl⟩ := he
  rw [uniformGround_nameAt off img hu (by omega) (by omega)]
  rfl

/-- A 1x1 image of plain ground maps to the single tile `0000.png`. -/
theorem createTileMap_uniform_witness :
    ∃ grid, createTileMap slashJoin trigOffsets "tiles" ⟨1, 1, fun _ _ => rgba8 0 0 0 255⟩
        = .ok grid ∧
      Shaped 1 1 grid ∧ ∀ row ∈ grid, ∀ e ∈ row, e = slashJoin "tiles" "0000.png" :=
  createTileMap_uniform slashJoin trigOffsets "tiles" ⟨1, 1, fun _ _ => rgba8 0 0 0 255⟩
    (by unfold UniformGround; decide)

/-- C15: for every base directory and every image built from accepted palette
colours, `createTileMap` returns a grid of exactly `height` rows with exactly
`width` entries each, and its entry at `[y][x]` is
`join base (calcFilename img y x + ".png")`. -/
theorem createTileMap_grid (join : String → String → String) (off : Offsets)
    (base : String) (img : Image) (hp : PaletteImage img) :
    ∃ grid, createTileMap join off base img = .ok grid ∧
      grid.length = img.height ∧ (∀ row ∈ grid, row.length = img.width) ∧
      ∀ y x : Nat, y < img.height → x < img.width →
        ∃ name, calcFilename off img y x = .ok name ∧
          cellAt grid y x = some (join base (name ++ ".png")) := by
  refine ⟨_, createTileMap_spec join off base img hp,
    (shaped_map_range img.height img.width _).1,
    (shaped_map_range img.height img.width _).2, ?_⟩
  intro y x hy hx
  refine ⟨nameAt off img y x, calcFilename_nameAt off img hp (by omega) (by omega) y x, ?_⟩
  exact cellAt_map_range (fun y x => join base (nameAt off img (y : Nat) (x : Nat) ++ ".png"))
    hy hx

/-- The tile map of `islandImage`. -/
theorem createTileMap_grid_witness :
    ∃ grid, createTileMap slashJoin trigOffsets "tiles" islandImage = .ok grid ∧
      grid.length = 3 ∧ (∀ row ∈ grid, row.length = 3) ∧
      ∀ y x : Nat, y < 3 → x < 3 →
        ∃ name, calcFilename trigOffsets islandImage y x = .ok name ∧
          cellAt grid y x = some (slashJoin "tiles" (name ++ ".png")) :=
  createTileMap_grid slashJoin trigOffsets "tiles" islandImage
    (by unfold PaletteImage; decide)

/-! ## Autotile resolver with the offsets of the source -/

theorem singleGrass_kind (img : Image) (y0 x0 : Nat) (hs : SingleGrass img y0 x0)
    (hw : 0 < img.width) (hh : 0 < img.height) (y x : Int) :
    getGroundKind img y x =
      .ok (if clampCoord img.height y = y0 ∧ clampCoord img.width x = x0 then Grass
        else Ground) := by
  rw [getGroundKind_eq img hw hh]
  have hx := clampCoord_range img.width hw x
  have hy := clampCoord_range img.height hh y
  obtain ⟨cx, hcx⟩ : ∃ cx : Nat, (cx : Int) = clampCoord img.width x :=
    ⟨(clampCoord img.width x).toNat, by omega⟩
  obtain ⟨cy, hcy⟩ : ∃ cy : Nat, (cy : Int) = clampCoord img.height y :=
    ⟨(clampCoord img.height y).toNat, by omega⟩
  rw [← hcx, ← hcy, hs cx (by omega) cy (by omega)]
  simp only [Nat.cast_inj]

theorem singleGrass_edgeKind (img : Image) (y0 x0 : Nat) (hs : SingleGrass img y0 x0)
    (hw : 0 < img.width) (hh : 0 < img.height) (y x : Int) (i : Nat) :
    edgeKind trigOffsets img y x i =
      .ok (if (clampCoord img.height (y + trigOffsets.a_y i) = y0 ∧
              clampCoord img.width (x + trigOffsets.a_x i) = x0) ∨
            (clampCoord img.height (y + trigOffsets.b_y i) = y0 ∧
              clampCoord img.width (x + trigOffsets.b_x i) = x0) ∨
            (clampCoord img.height (y + trigOffsets.c_y i) = y0 ∧
              clampCoord img.width (x + trigOffsets.c_x i) = x0) then 1 else 0) := by
  unfold edgeKind
  rw [singleGrass_kind img y0 x0 hs hw hh, singleGrass_kind img y0 x0 hs hw hh,
    singleGrass_kind img y0 x0 hs hw hh]
  by_cases ha : clampCoord img.height (y + trigOffsets.a_y i) = y0 ∧
      clampCoord img.width (x + trigOffsets.a_x i) = x0 <;>
  by_cases hb : clampCoord img.height (y + trigOffsets.b_y i) = y0 ∧
      clampCoord img.width (x + trigOffsets.b_x i) = x0 <;>
  by_cases hc : clampCoord img.height (y + trigOffsets.c_y i) = y0 ∧
      clampCoord img.width (x + trigOffsets.c_x i) = x0 <;>
  simp only [ha, hb, hc, if_true, if_false, or_true, true_or, or_self] <;> rfl

theorem singleGrass_name (img : Image) (y0 x0 : Nat) (hs : SingleGrass img y0 x0)
    (hw : 0 < img.width) (hh : 0 < img.height) (y x : Int) (e0 e1 e2 e3 : Nat)
    (hcell : ¬ (clampCoord img.height y = y0 ∧ clampCoord img.width x = x0))
    (h0 : edgeKind trigOffsets img y x 0 = .ok e0)
    (h1 : edgeKind trigOffsets img y x 1 = .ok e1)
    (h2 : edgeKind trigOffsets img y x 2 = .ok e2)
    (h3 : edgeKind trigOffsets img y x 3 = .ok e3) :
    calcFilename trigOffsets img y x =
      .ok (toString (0 ||| (e0 <<< 1) ||| e3) ++ toString (0 ||| e0 ||| (e1 <<< 1)) ++
        toString (0 ||| e1 ||| (e2 <<< 1)) ++ toString (0 ||| e2 ||| (e3 <<< 1))) := by
  have hg : getGroundKind img y x = .ok Ground := by
    rw [singleGrass_kind img y0 x0 hs hw hh, if_neg hcell]
  exact calcFilename_ground trigOffsets img y x e0 e1 e2 e3 hg h0 h1 h2 h3

/-- C12: in an image that is Ground-kind everywhere except one Grass-kind
pixel at an interior position `(y0, x0)`, `calcFilename` returns "3333" at
`(y0, x0)`, "3102" at `(y0+1, x0)`, "2310" at `(y0, x0-1)`, "0231" at
`(y0-1, x0)` and "1023" at `(y0, x0+1)`, with the neighbour offsets of the
source. -/
theorem calcFilename_single_grass (img : Image) (y0 x0 : Nat)
    (hs : SingleGrass img y0 x0)
    (hy1 : 1 ≤ y0) (hy2 : y0 + 1 < img.height) (hx1 : 1 ≤ x0) (hx2 : x0 + 1 < img.width) :
    calcFilename trigOffsets img y0 x0 = .ok "3333" ∧
    calcFilename trigOffsets img ((y0 : Int) + 1) x0 = .ok "3102" ∧
    calcFilename trigOffsets img y0 ((x0 : Int) - 1) = .ok "2310" ∧
    calcFilename trigOffsets img ((y0 : Int) - 1) x0 = .ok "0231" ∧
    calcFilename trigOffsets img y0 ((x0 : Int) + 1) = .ok "1023" := by
  have hw : 0 < img.width := by omega
  have hh : 0 < img.height := by omega
  refine ⟨?_, ?_, ?_, ?_, ?_⟩
  · apply calcFilename_grass
    rw [singleGrass_kind img y0 x0 hs hw hh, if_pos (by unfold clampCoord; omega)]
  · rw [singleGrass_name img y0 x0 hs hw hh _ _ 1 0 0 1 (by unfold clampCoord; omega)]
    · rfl
    all_goals
      rw [singleGrass_edgeKind img y0 x0 hs hw hh]
      simp only [trigOffsets, List.getD_cons_zero, List.getD_cons_succ, clampCoord]
      split_ifs with h
      all_goals first | rfl | (exfalso; omega)
  · rw [singleGrass_name img y0 x0 hs hw hh _ _ 1 1 0 0 (by unfold clampCoord; omega)]
    · rfl
    all_goals
      rw [singleGrass_edgeKind img y0 x0 hs hw hh]
      simp only [trigOffsets, List.getD_cons_zero, List.getD_cons_succ, clampCoord]
      split_ifs with h
      all_goals first | rfl | (exfalso; omega)
  · rw [singleGrass_name img y0 x0 hs hw hh _ _ 0 1 1 0 (by unfold clampCoord; omega)]
    · rfl
    all_goals
      rw [singleGrass_edgeKind img y0 x0 hs hw hh]
      simp only [trigOffsets, List.getD_cons_zero, List.getD_cons_succ, clampCoord]
      split_ifs with h
      all_goals first | rfl | (exfalso; omega)
  · rw [singleGrass_name img y0 x0 hs hw hh _ _ 0 0 1 1 (by unfold clampCoord; omega)]
    · rfl
    all_goals
      rw [singleGrass_edgeKind img y0 x0 hs hw hh]
      simp only [trigOffsets, List.getD_cons_zero, List.getD_cons_succ, clampCoord]
      split_ifs with h
      all_goals first | rfl | (exfalso; omega)

/-- The grass pixel of `islandImage` and its four neighbours. -/
theorem calcFilename_single_grass_witness :
    calcFilename trigOffsets islandImage 1 1 = .ok "3333" ∧
    calcFilename trigOffsets islandImage ((1 : Nat) + 1 : Int) 1 = .ok "3102" ∧
    calcFilename trigOffsets islandImage 1 ((1 : Nat) - 1 : Int) = .ok "2310" ∧
    calcFilename trigOffsets islandImage ((1 : Nat) - 1 : Int) 1 = .ok "0231" ∧
    calcFilename trigOffsets islandImage 1 ((1 : Nat) + 1 : Int) = .ok "1023" :=
  calcFilename_single_grass islandImage 1 1 (by unfold SingleGrass; decide)
    (by decide) (by decide) (by decide) (by decide)

theorem edgeKind_all_grass (img : Image) (y x : Int)
    (hn : ∀ dy dx : Int, -1 ≤ dy → dy ≤ 1 → -1 ≤ dx → dx ≤ 1 → (dy ≠ 0 ∨ dx ≠ 0) →
      getGroundKind img (y + dy) (x + dx) = .ok Grass)
    (i : Nat) (hi : i < 4) : edgeKind trigOffsets img y x i = .ok 1 := by
  unfold edgeKind
  interval_cases i <;>
    simp only [trigOffsets, List.getD_cons_zero, List.getD_cons_succ] <;>
    rw [hn _ _ (by decide) (by decide) (by decide) (by decide) (by decide),
      hn _ _ (by decide) (by decide) (by decide) (by decide) (by decide),
      hn _ _ (by decide) (by decide) (by decide) (by decide) (by decide)] <;>
    rfl

/-- C19: "3333" does not identify Grass cells. For every image and every
Ground-kind cell whose 8 surrounding cells, sampled with clamping, are all
Grass-kind, `calcFilename` returns "3333", the name of a Grass-kind cell; and
such a cell exists, so a result "3333" does not imply that the cell is
Grass-kind. -/
theorem calcFilename_3333_ground :
    (∀ (img : Image) (y x : Int),
      getGroundKind img y x = .ok Ground →
      (∀ dy dx : Int, -1 ≤ dy → dy ≤ 1 → -1 ≤ dx → dx ≤ 1 → (dy ≠ 0 ∨ dx ≠ 0) →
        getGroundKind img (y + dy) (x + dx) = .ok Grass) →
      calcFilename trigOffsets img y x = .ok "3333") ∧
    ¬ (∀ (img : Image) (y x : Int),
      calcFilename trigOffsets img y x = .ok "3333" → getGroundKind img y x = .ok Grass) := by
  constructor
  · intro img y x hg hn
    rw [calcFilename_ground trigOffsets img y x 1 1 1 1 hg
      (edgeKind_all_grass img y x hn 0 (by decide))
      (edgeKind_all_grass img y x hn 1 (by decide))
      (edgeKind_all_grass img y x hn 2 (by decide))
      (edgeKind_all_grass img y x hn 3 (by decide))]
    rfl
  · intro h
    have h1 := h pondImage 1 1 (by decide)
    revert h1
    decide

/-- The ground pixel in the middle of `pondImage` is named "3333". -/
theorem calcFilename_3333_ground_witness :
    getGroundKind pondImage 1 1 = .ok Ground ∧
    calcFilename trigOffsets pondImage 1 1 = .ok "3333" :=
  ⟨by decide,
   calcFilename_3333_ground.1 pondImage 1 1 (by decide) (by
    intro dy dx h1 h2 h3 h4 _
    have hy : dy = -1 ∨ dy = 0 ∨ dy = 1 := by omega
    have hx : dx = -1 ∨ dx = 0 ∨ dx = 1 := by omega
    rcases hy with rfl | rfl | rfl <;> rcases hx with rfl | rfl | rfl <;>
      first | decide | (exfalso; omega))⟩

/-- C18: the names `calcFilename` can return are exactly the 16 names of the
catalogue. Each entry of `tiles` is the name, followed by ".png", of some cell
of some image built from accepted palette colours, and for every entry other
than "3333.png" that cell can be taken Ground-kind; and whenever `calcFilename`
returns a name, that name followed by ".png" is in `tiles`. -/
theorem calcFilename_range :
    (∀ t ∈ tiles, ∃ (img : Image) (y x : Nat) (name : String),
      PaletteImage img ∧ y < img.height ∧ x < img.width ∧
      calcFilename trigOffsets img y x = .ok name ∧ name ++ ".png" = t ∧
      (t ≠ "3333.png" → getGroundKind img y x = .ok Ground)) ∧
    (∀ (img : Image) (y x : Int) (name : String),
      calcFilename trigOffsets img y x = .ok name → name ++ ".png" ∈ tiles) := by
  refine ⟨?_, fun img y x name h => calcFilename_ok_catalogue trigOffsets img y x name h⟩
  intro t ht
  simp only [tiles, List.mem_cons, List.mem_singleton, List.not_mem_nil, or_false] at ht
  rcases ht with rfl | rfl | rfl | rfl | rfl | rfl | rfl | rfl | rfl | rfl | rfl | rfl |
    rfl | rfl | rfl | rfl
  · exact ⟨cornerImage false false false false, 1, 1, "0000",
      by unfold PaletteImage; decide, by decide, by decide, by decide, by decide, by decide⟩
  · exact ⟨cornerImage false false true false, 1, 1, "0021",
      by unfold PaletteImage; decide, by decide, by decide, by decide, by decide, by decide⟩
  · exact ⟨cornerImage false true false false, 1, 1, "0210",
      by unfold PaletteImage; decide, by decide, by decide, by decide, by decide, by decide⟩
  · exact ⟨cornerImage false true true false, 1, 1, "0231",
      by unfold PaletteImage; decide, by decide, by decide, by decide, by decide, by decide⟩
  · exact ⟨cornerImage false false false true, 1, 1, "1002",
      by unfold PaletteImage; decide, by decide, by decide, by decide, by decide, by decide⟩
  · exact ⟨cornerImage false false true true, 1, 1, "1023",
      by unfold PaletteImage; decide, by decide, by decide, by decide, by decide, by decide⟩
  · exact ⟨cornerImage false true false true, 1, 1, "1212",
      by unfold PaletteImage; decide, by decide, by decide, by decide, by decide, by decide⟩
  · exact ⟨cornerImage false true true true, 1, 1, "1233",
      by unfold PaletteImage; decide, by decide, by decide, by decide, by decide, by decide⟩
  · exact ⟨cornerImage true false false false, 1, 1, "2100",
      by unfold PaletteImage; decide, by decide, by decide, by decide, by decide, by decide⟩
  · exact ⟨cornerImage true false true false, 1, 1, "2121",
      by unfold PaletteImage; decide, by decide, by decide, by decide, by decide, by decide⟩
  · exact ⟨cornerImage true true false false, 1, 1, "2310",
      by unfold PaletteImage; decide, by decide, by decide, by decide, by decide, by decide⟩
  · exact ⟨cornerImage true true true false, 1, 1, "2331",
      by unfold PaletteImage; decide, by decide, by decide, by decide, by decide, by decide⟩
  · exact ⟨cornerImage true false false true, 1, 1, "3102",
      by unfold PaletteImage; decide, by decide, by decide, by decide, by decide, by decide⟩
  · exact ⟨cornerImage true false true true, 1, 1, "3123",
      by unfold PaletteImage; decide, by decide, by decide, by decide, by decide, by decide⟩
  · exact ⟨cornerImage true true false true, 1, 1, "3312",
      by unfold PaletteImage; decide, by decide, by decide, by decide, by decide, by decide⟩
  · exact ⟨islandImage, 1, 1, "3333",
      by unfold PaletteImage; decide, by decide, by decide, by decide, by decide, by decide⟩

/-! ## Object map builder: frame, dimensions, colour strings -/

/-- C14: whenever `createObjectMap` succeeds, the result has the ground
image's dimensions (`height` rows of `width` entries each), and every cell
whose overlay pixel has alpha 0 keeps its value of the first pass: the
configured transparent placeholder if `isObject` holds there, the empty string
otherwise. -/
theorem createObjectMap_frame (oj : ObjectJSON) (grdimg objimg : Image)
    (ret : List (List String)) (hok : createObjectMap oj grdimg objimg = .ok ret) :
    ret.length = grdimg.height ∧ (∀ row ∈ ret, row.length = grdimg.width) ∧
    ∀ y x : Nat, y < grdimg.height → x < grdimg.width →
      (get8bitColor (objimg.At x y)).2.2.2 = 0 →
      cellAt ret y x = some (if isObject grdimg y x then oj.Transparent else "") := by
  obtain ⟨s1, s2⟩ := createObjectMap_spec oj grdimg objimg
  by_cases hbad : ∃ y, y < grdimg.height ∧ ∃ x, x < grdimg.width ∧ UnknownOverlay oj objimg y x
  · obtain ⟨c, y', x', herr⟩ := s1 hbad
    rw [hok] at herr
    cases herr
  · obtain ⟨ret', hok', hsh, hcell⟩ :=
      s2 (fun y hy x hx hu => hbad ⟨y, hy, x, hx, hu⟩)
    rw [hok] at hok'
    cases hok'
    refine ⟨hsh.1, hsh.2, ?_⟩
    intro y x hy hx ha
    rw [hcell y x hy hx, if_neg (by simpa using ha)]

/-- The transparent cells around the red overlay pixel keep the placeholder. -/
theorem createObjectMap_frame_witness :
    createObjectMap demoConfig wallBlockImage demoOverlay =
      .ok [["clear.png", "clear.png", "clear.png"], ["clear.png", "tree.png", "clear.png"],
        ["clear.png", "clear.png", "clear.png"]] ∧
    cellAt [["clear.png", "clear.png", "clear.png"], ["clear.png", "tree.png", "clear.png"],
        ["clear.png", "clear.png", "clear.png"]] 0 2 =
      some (if isObject wallBlockImage (0 : Nat) (2 : Nat) then demoConfig.Transparent else "") :=
  ⟨by decide,
   (createObjectMap_frame demoConfig wallBlockImage demoOverlay _ (by decide)).2.2 0 2
    (by decide) (by decide) (by decide)⟩

/-- C17 as stated fails: with a 3x3 ground image and a 1x1 overlay image the
dimensions differ, and `createObjectMap` returns a grid. -/
theorem createObjectMap_mismatch_counterexample :
    ¬ (∀ (oj : ObjectJSON) (grdimg objimg : Image),
        (grdimg.width ≠ objimg.width ∨ grdimg.height ≠ objimg.height) →
        ∃ e, createObjectMap oj grdimg objimg = .error e) := by
  intro h
  obtain ⟨e, he⟩ := h demoConfig wallBlockImage tinyOverlay (by decide)
  have hk : createObjectMap demoConfig wallBlockImage tinyOverlay =
      .ok [["clear.png", "clear.png", "clear.png"], ["clear.png", "clear.png", "clear.png"],
        ["clear.png", "clear.png", "clear.png"]] := by decide
  rw [hk] at he
  cases he

/-- C17, amended: `createObjectMap` never fails with an out-of-range access,
whatever the dimensions of the two images. It reads the overlay through its
reader at the coordinates of the ground image only and writes inside the grid
it built, so unless one of the overlay pixels it reads has an unknown colour
it returns a grid of the ground image's dimensions. -/
theorem createObjectMap_no_out_of_range (oj : ObjectJSON) (grdimg objimg : Image) :
    createObjectMap oj grdimg objimg ≠ .error .indexOutOfRange ∧
    ((∀ y, y < grdimg.height → ∀ x, x < grdimg.width → ¬ UnknownOverlay oj objimg y x) →
      ∃ ret, createObjectMap oj grdimg objimg = .ok ret ∧
        ret.length = grdimg.height ∧ ∀ row ∈ ret, row.length = grdimg.width) := by
  obtain ⟨s1, s2⟩ := createObjectMap_spec oj grdimg objimg
  constructor
  · intro herr
    by_cases hbad : ∃ y, y < grdimg.height ∧ ∃ x, x < grdimg.width ∧
        UnknownOverlay oj objimg y x
    · obtain ⟨c, y', x', herr'⟩ := s1 hbad
      rw [herr] at herr'
      cases herr'
    · obtain ⟨ret, hok, -, -⟩ := s2 (fun y hy x hx hu => hbad ⟨y, hy, x, hx, hu⟩)
      rw [herr] at hok
      cases hok
  · intro hall
    obtain ⟨ret, hok, hsh, -⟩ := s2 hall
    exact ⟨ret, hok, hsh.1, hsh.2⟩

/-- The 3x3 ground image with the 1x1 overlay gives a 3x3 grid. -/
theorem createObjectMap_no_out_of_range_witness :
    (wallBlockImage.width ≠ tinyOverlay.width ∨ wallBlockImage.height ≠ tinyOverlay.height) ∧
    ∃ ret, createObjectMap demoConfig wallBlockImage tinyOverlay = .ok ret ∧
      ret.length = 3 ∧ ∀ row ∈ ret, row.length = 3 :=
  ⟨by decide,
   (createObjectMap_no_out_of_range demoConfig wallBlockImage tinyOverlay).2
    (fun y _ x _ hu => hu.1 (by simp [tinyOverlay, get8bitColor]))⟩

theorem sprintf02x_upper (v : Nat) (hv : v ≤ 255) :
    (sprintf02x v).map Char.toUpper = [hexUpper (v / 16), hexUpper (v % 16)] := by
  interval_cases v <;> rfl

theorem hexUpper_inj (a b : Nat) (ha : a < 16) (hb : b < 16)
    (h : hexUpper a = hexUpper b) : a = b := by
  interval_cases a <;> interval_cases b <;> first | rfl | (exfalso; revert h; decide)

theorem hexUpper_mem (a : Nat) (ha : a < 16) : hexUpper a ∈ "0123456789ABCDEF".data := by
  interval_cases a <;> decide

theorem colorString_eq_hexRGB (col : Color) (h : VisiblePixel col) :
    colorString col = String.mk (hexRGB col) := by
  obtain ⟨ha, hr, hg, hb⟩ := h
  unfold colorString hexRGB
  simp only [beq_iff_eq, ha, if_false, List.map_append, sprintf02x_upper _ hr,
    sprintf02x_upper _ hg, sprintf02x_upper _ hb]
  rfl

theorem hexRGB_inj (c1 c2 : Color) (h1 : VisiblePixel c1) (h2 : VisiblePixel c2)
    (h : hexRGB c1 = hexRGB c2) :
    (get8bitColor c1).1 = (get8bitColor c2).1 ∧ (get8bitColor c1).2.1 = (get8bitColor c2).2.1 ∧
      (get8bitColor c1).2.2.1 = (get8bitColor c2).2.2.1 := by
  obtain ⟨-, hr1, hg1, hb1⟩ := h1
  obtain ⟨-, hr2, hg2, hb2⟩ := h2
  unfold hexRGB at h
  simp only [List.cons.injEq, and_true] at h
  obtain ⟨e1, e2, e3, e4, e5, e6⟩ := h
  have q1 := hexUpper_inj _ _ (by omega) (by omega) e1
  have q2 := hexUpper_inj _ _ (by omega) (by omega) e2
  have q3 := hexUpper_inj _ _ (by omega) (by omega) e3
  have q4 := hexUpper_inj _ _ (by omega) (by omega) e4
  have q5 := hexUpper_inj _ _ (by omega) (by omega) e5
  have q6 := hexUpper_inj _ _ (by omega) (by omega) e6
  omega

/-- C16: for every pixel with alpha different from 0 and r, g, b in 0..255,
`colorString` returns a string of exactly 6 characters, each among 0-9 and
A-F, that is the two-digit upper-case hexadecimal encoding of r, then g, then
b; it is never the empty string; and two such pixels get the same string if
and only if they have the same (r, g, b). -/
theorem colorString_hex :
    (∀ col : Color, VisiblePixel col →
      colorString col = String.mk (hexRGB col) ∧
      (colorString col).length = 6 ∧
      (∀ c ∈ (colorString col).data, c ∈ "0123456789ABCDEF".data) ∧
      colorString col ≠ "") ∧
    (∀ c1 c2 : Color, VisiblePixel c1 → VisiblePixel c2 →
      (colorString c1 = colorString c2 ↔
        ((get8bitColor c1).1 = (get8bitColor c2).1 ∧
          (get8bitColor c1).2.1 = (get8bitColor c2).2.1 ∧
          (get8bitColor c1).2.2.1 = (get8bitColor c2).2.2.1))) := by
  constructor
  · intro col h
    have hs := colorString_eq_hexRGB col h
    obtain ⟨ha, hr, hg, hb⟩ := h
    refine ⟨hs, by rw [hs]; rfl, ?_, fun he => ha ((colorString_eq_empty col).1 he)⟩
    intro c hc
    rw [hs] at hc
    simp only [hexRGB, List.mem_cons, List.mem_singleton, List.not_mem_nil, or_false] at hc
    rcases hc with rfl | rfl | rfl | rfl | rfl | rfl <;> exact hexUpper_mem _ (by omega)
  · intro c1 c2 h1 h2
    rw [colorString_eq_hexRGB c1 h1, colorString_eq_hexRGB c2 h2]
    constructor
    · intro h
      exact hexRGB_inj c1 c2 h1 h2 (congrArg String.data h)
    · rintro ⟨e1, e2, e3⟩
      unfold hexRGB
      rw [e1, e2, e3]

/-- Orange at two different alphas has the colour string "FF8000". -/
theorem colorString_hex_witness :
    colorString (rgba8 255 128 0 255) = "FF8000" ∧
    (colorString (rgba8 255 128 0 255) = colorString (rgba8 255 128 0 7) ↔
      ((get8bitColor (rgba8 255 128 0 255)).1 = (get8bitColor (rgba8 255 128 0 7)).1 ∧
        (get8bitColor (rgba8 255 128 0 255)).2.1 = (get8bitColor (rgba8 255 128 0 7)).2.1 ∧
        (get8bitColor (rgba8 255 128 0 255)).2.2.1 =
          (get8bitColor (rgba8 255 128 0 7)).2.2.1)) :=
  ⟨(colorString_hex.1 (rgba8 255 128 0 255) (by unfold VisiblePixel; decide)).1.trans
      (by decide),
   colorString_hex.2 (rgba8 255 128 0 255) (rgba8 255 128 0 7)
    (by unfold VisiblePixel; decide) (by unfold VisiblePixel; decide)⟩

/-! ## Registration of the texture names in `main` -/

theorem foldl_mapSet {α : Type} (f : α → String) (l : List α)
    (m : String → Option String) (k : String) :
    (l.foldl (fun m t => mapSet m (f t) (f t)) m) k =
      if k ∈ l.map f then some k else m k := by
  induction l generalizing m with
  | nil => simp
  | cons a l ih =>
    rw [List.foldl_cons, ih]
    by_cases h1 : k ∈ l.map f
    · simp [h1]
    · by_cases h2 : k = f a
      · simp [h1, h2, mapSet]
      · simp [h1, h2, mapSet]

theorem lookup_mem_objectValues (oj : ObjectJSON) (col obj : String)
    (h : oj.Objects.lookup col = some obj) : obj ∈ objectValues oj := by
  obtain ⟨l1, l2, hl, -⟩ := List.lookup_eq_some_iff.1 h
  unfold objectValues
  rw [List.mem_map]
  refine ⟨(col, obj), ?_, rfl⟩
  rw [List.mem_filter]
  refine ⟨by rw [hl]; simp, ?_⟩
  simp [h]

theorem registered_url (join : String → String → String) (oj : ObjectJSON)
    (m : String → Option String) (k : String)
    (hk : k = oj.Transparent ∨ (∃ t ∈ tiles, k = join oj.TileBase t) ∨ k ∈ objectValues oj) :
    registerTextures join oj m k = some k := by
  unfold registerTextures
  rw [foldl_mapSet (fun p => p), foldl_mapSet (fun t => join oj.TileBase t)]
  by_cases h1 : k ∈ (objectValues oj).map fun p => p
  · rw [if_pos h1]
  · rw [if_neg h1]
    by_cases h2 : k ∈ tiles.map fun t => join oj.TileBase t
    · rw [if_pos h2]
    · rw [if_neg h2]
      rcases hk with hk | ⟨t, ht, hk⟩ | hk
      · simp [mapSet, hk]
      · exact absurd (List.mem_map.2 ⟨t, ht, hk.symm⟩) h2
      · exact absurd (by simpa using hk) h1

/-- C20: every texture name emitted into the map layers is registered. For a
ground image built from accepted palette colours and an overlay and
configuration on which `createObjectMap` succeeds, `main` completes, and in
its output every entry of `Layers.TileMap`, and every entry of
`Layers.Object` at a cell that is an object cell or has an overlay pixel of
alpha different from 0, is a key of `TextureNameToURL` (mapped to itself). -/
theorem main_registers (join : String → String → String) (off : Offsets) (output : MapJSON)
    (oj : ObjectJSON) (grdimg objimg : Image) (hp : PaletteImage grdimg)
    (objMap : List (List String)) (hobj : createObjectMap oj grdimg objimg = .ok objMap) :
    ∃ out, main join off output oj grdimg objimg = .ok out ∧
      out.Layers.Object = objMap ∧
      createTileMap join off oj.TileBase grdimg = .ok out.Layers.TileMap ∧
      (∀ row ∈ out.Layers.TileMap, ∀ e ∈ row, out.TextureNameToURL e = some e) ∧
      (∀ y x : Nat, y < grdimg.height → x < grdimg.width →
        (isObject grdimg y x = true ∨ (get8bitColor (objimg.At x y)).2.2.2 ≠ 0) →
        ∃ e, cellAt out.Layers.Object y x = some e ∧ out.TextureNameToURL e = some e) := by
  have htile := createTileMap_spec join off oj.TileBase grdimg hp
  refine ⟨⟨registerTextures join oj output.TextureNameToURL, ⟨_, objMap⟩,
    getRespawnPositions grdimg⟩, ?_, rfl, htile, ?_, ?_⟩
  · unfold main
    rw [htile, hobj]
    rfl
  · intro row hrow e he
    simp only [List.mem_map, List.mem_range] at hrow
    obtain ⟨y, hy, rfl⟩ := hrow
    simp only [List.mem_map, List.mem_range] at he
    obtain ⟨x, hx, rfl⟩ := he
    apply registered_url
    refine Or.inr (Or.inl ⟨_, ?_, rfl⟩)
    exact calcFilename_ok_catalogue off grdimg y x _
      (calcFilename_nameAt off grdimg hp (by omega) (by omega) y x)
  · intro y x hy hx hset
    obtain ⟨s1, s2⟩ := createObjectMap_spec oj grdimg objimg
    by_cases hbad : ∃ y, y < grdimg.height ∧ ∃ x, x < grdimg.width ∧
        UnknownOverlay oj objimg y x
    · obtain ⟨c, y', x', herr⟩ := s1 hbad
      rw [hobj] at herr
      cases herr
    · obtain ⟨ret', hok', -, hcell⟩ := s2 (fun y hy x hx hu => hbad ⟨y, hy, x, hx, hu⟩)
      rw [hobj] at hok'
      cases hok'
      by_cases ha : (get8bitColor (objimg.At x y)).2.2.2 = 0
      · have hio : isObject grdimg y x = true := by
          rcases hset with h | h
          · exact h
          · exact absurd ha h
        refine ⟨oj.Transparent, ?_, registered_url join oj _ _ (Or.inl rfl)⟩
        show cellAt objMap y x = some oj.Transparent
        rw [hcell y x hy hx, if_neg (by simpa using ha), if_pos hio]
      · cases hl : oj.Objects.lookup (colorString (objimg.At x y)) with
        | none => exact absurd ⟨y, hy, x, hx, ha, hl⟩ hbad
        | some obj =>
          refine ⟨obj, ?_, registered_url join oj _ _
            (Or.inr (Or.inr (lookup_mem_objectValues oj _ _ hl)))⟩
          show cellAt objMap y x = some obj
          rw [hcell y x hy hx, if_pos ha, hl]

/-- In the output for `islandImage` with the red overlay pixel, the tile of the
middle cell and the overlay texture are registered. -/
theorem main_registers_witness :
    ∃ out, main slashJoin trigOffsets emptyTemplate demoConfig islandImage demoOverlay
        = .ok out ∧
      out.Layers.Object = [["", "", ""], ["", "tree.png", ""], ["", "", ""]] ∧
      createTileMap slashJoin trigOffsets demoConfig.TileBase islandImage
        = .ok out.Layers.TileMap ∧
      (∀ row ∈ out.Layers.TileMap, ∀ e ∈ row, out.TextureNameToURL e = some e) ∧
      (∀ y x : Nat, y < 3 → x < 3 →
        (isObject islandImage y x = true ∨
          (get8bitColor (demoOverlay.At x y)).2.2.2 ≠ 0) →
        ∃ e, cellAt out.Layers.Object y x = some e ∧ out.TextureNameToURL e = some e) :=
  main_registers slashJoin trigOffsets emptyTemplate demoConfig islandImage demoOverlay
    (by unfold PaletteImage; decide) _ (by decide)

end Mapgen
